import Mathlib

/-!
Shallow embedding of the scst-rs configuration client (crate `scst`).

The embedding mirrors the Rust sources file by file:

* `src/scst/src/lib.rs` — the `Options` container (`different_set`,
  `to_string`), the first-line reader `read_fl`, and the `mgmt`/`echo`
  command issuer.
* `src/scst/src/handler.rs`, `src/scst/src/target.rs`,
  `src/scst/src/scst_tgt.rs`, `src/scst/src/device.rs`,
  `src/scst/src/copy_manager.rs` — the entity tree, its mutators and its
  `load` routines.
* `src/scst/src/config.rs` — the declarative configuration snapshot used
  by the reconciler `Scst::from_cfg`.

Rust `HashMap`/`BTreeMap` collections become association lists
(`List (String × α)`) whose `insert` replaces an existing binding in
place; no claim depends on iteration order.  Filesystem side effects are
split in two layers: the directory-walking `load` routines are embedded
concretely over a model filesystem tree (`FNode`), while the mutators'
write-then-reload steps run against an oracle environment (`Env`) that
answers reloads, and every attempted control-file write is recorded in an
event trace (`Event`).  Machine integers (`i8`, `u32`, `usize`) become
`Int`/`Nat` with explicit range checks in the parsers.
-/

namespace ScstM

/-- Filesystem paths, as lists of components (Rust `PathBuf` with `join`). -/
abbrev FsPath := List String

/-- Lookup in an association list, mirroring `HashMap::get`/`BTreeMap::get`. -/
def mapLookup {α : Type} : List (String × α) → String → Option α
  | [], _ => none
  | (k', v) :: rest, k => if k' = k then some v else mapLookup rest k

/-- Key membership, mirroring `contains_key`. -/
def mapContains {α : Type} (m : List (String × α)) (k : String) : Bool :=
  (mapLookup m k).isSome

/-- Insert, mirroring `HashMap::insert`/`BTreeMap::insert`: an existing
binding for the key is replaced in place, otherwise the pair is appended. -/
def mapInsert {α : Type} : List (String × α) → String → α → List (String × α)
  | [], k, v => [(k, v)]
  | (k', v') :: rest, k, v =>
    if k' = k then (k, v) :: rest else (k', v') :: mapInsert rest k v

/-- Removal, mirroring `HashMap::remove` (at most one binding per key in
maps built by `mapInsert`). -/
def mapRemove {α : Type} : List (String × α) → String → List (String × α)
  | [], _ => []
  | (k', v') :: rest, k =>
    if k' = k then rest else (k', v') :: mapRemove rest k

/-- Collect an iterator of key-value pairs into a map, later pairs
overwriting earlier ones (Rust `collect::<HashMap<_, _>>()`). -/
def collectPairs {α : Type} (l : List (String × α)) : List (String × α) :=
  l.foldl (fun m kv => mapInsert m kv.1 kv.2) []

/-! ### The first-line reader `read_fl` (src/scst/src/lib.rs:263) -/

/-- Embedding of Rust `str::split('\n')` over the characters of a string:
the list of segments between newline characters.  `split` always yields at
least one (possibly empty) segment. -/
def splitNl : List Char → List (List Char)
  | [] => [[]]
  | c :: rest =>
    if c = '\n' then [] :: splitNl rest
    else
      match splitNl rest with
      | [] => [[c]]
      | seg :: segs => (c :: seg) :: segs

/-- Core of `read_fl` (src/scst/src/lib.rs:263): split the file content on
newlines and keep the first segment, defaulting to the empty string. -/
def read_fl_chars (content : List Char) : List Char :=
  (splitNl content).headD []

/-- String-level wrapper for `read_fl` used by the `load` embeddings. -/
def read_fl (content : String) : String :=
  String.mk (read_fl_chars content.data)

/-! ### The `Options` container (src/scst/src/lib.rs:219) -/

/-- Embedding of `Options` (src/scst/src/lib.rs:219): an unordered map of
string keys to string values, here an association list. -/
structure Options where
  inner : List (String × String) := []
  deriving Repr, DecidableEq

/-- Embedding of `Options::new`. -/
def Options.new : Options := {}

/-- Embedding of `Options::insert` (src/scst/src/lib.rs:231). -/
def Options.insert (o : Options) (k v : String) : Options :=
  { o with inner := mapInsert o.inner k v }

/-- Embedding of `Options::different_set` (src/scst/src/lib.rs:243):
keeps exactly the present keys for which `keys.contains` holds — note the
negated test `!keys.contains(key)` maps to dropping keys NOT in `keys`. -/
def Options.different_set (o : Options) (keys : List String) : List String :=
  o.inner.filterMap (fun kv => if !(keys.contains kv.1) then none else some kv.1)

/-- Embedding of `Options::to_string` (src/scst/src/lib.rs:254): all
`key=value` pairs joined by a semicolon. -/
def Options.to_string (o : Options) : String :=
  String.intercalate ";" (o.inner.map (fun kv => kv.1 ++ "=" ++ kv.2))

/-- The set-difference described by the spec for checked serialization:
the keys present in the map minus the allowed keys. -/
def Options.spec_difference (o : Options) (keys : List String) : List String :=
  o.inner.filterMap (fun kv => if keys.contains kv.1 then none else some kv.1)

/-! ### Errors (src/scst/src/error.rs) -/

/-- Embedding of the `ScstError` variants exercised by the claims
(src/scst/src/error.rs).  `io` stands for `ScstError::Io(_)` (the wrapped
filesystem error), `unknown` for `ScstError::Unknown(_)` and other
parse-time failures surfaced through `anyhow`.  `deviceAddFail` is the
struct variant `DeviceAddFail .. name, e ..` nesting its cause. -/
inductive ScstErr where
  | io
  | noModule
  | unknown
  | badAttrs (keys : List String)
  | noHandler (name : String)
  | noDevice (name : String)
  | deviceExists (name : String)
  | deviceAddFail (name : String) (cause : ScstErr)
  | deviceRemFail (name : String)
  | noTarget (name : String)
  | targetExists (name : String)
  | targetNoLun (id : String)
  | targetLunExists (id : String)
  | targetAddLunFail (id : String)
  | targetRemLunFail (id : String)
  | noGroup (name : String)
  | groupExists (name : String)
  | groupNoLun (id : String)
  | groupLunExists (id : String)
  | groupAddLunFail (id : String)
  | groupRemLunFail (id : String)
  | groupNoIni (name : String)
  | groupIniExists (name : String)
  | groupAddIniFail (name : String)
  | groupRemIniFail (name : String)
  | groupMoveIniFail (name : String)
  | groupClearIniFail
  | lunSetAttrFail (id : String)
  deriving Repr, DecidableEq

/-- Modelled from the spec: `Options::check_pack` is called by
`Driver::add_target` (src/scst/src/target.rs:106) but its definition is
not under src/.  Per spec §4.3 the checked pack computes the
set-difference of the present keys minus the allowed keys, fails with an
error listing the offending keys when that difference is non-empty, and
otherwise delegates to the unconditional pack, yielding no value when the
map is empty. -/
def Options.check_pack (o : Options) (allowed : List String) :
    Except ScstErr (Option String) :=
  let offending := o.spec_difference allowed
  if offending.isEmpty then
    if o.inner.isEmpty then .ok none else .ok (some o.to_string)
  else .error (.badAttrs offending)

/-- Modelled from the spec: `cmd_with_options` is called by
`Handler::add_device` and the LUN mutators (src/scst/src/handler.rs:86,
src/scst/src/target.rs:362) but its definition is not under src/.  Per
spec §4.3 the command builder calls checked-pack and, if a value is
produced, appends a single space and the packed string to the base
command. -/
def cmd_with_options (cmd : String) (allowed : List String) (o : Options) :
    Except ScstErr String :=
  match o.check_pack allowed with
  | .error e => .error e
  | .ok none => .ok cmd
  | .ok (some s) => .ok (cmd ++ " " ++ s)

/-! ### The entity tree (src/scst/src/device.rs, handler.rs, target.rs,
copy_manager.rs, scst_tgt.rs) -/

/-- Embedding of `Device` (src/scst/src/device.rs:9). -/
structure Device where
  root : FsPath := []
  name : String := ""
  handler : String := ""
  filename : String := ""
  active : Int := 0
  read_only : Int := 0
  size : Nat := 0
  blocksize : Nat := 0
  deriving Repr, DecidableEq

/-- Embedding of `Lun` (src/scst/src/target.rs:794). -/
structure Lun where
  root : FsPath := []
  name : String := ""
  device : String := ""
  read_only : Int := 0
  deriving Repr, DecidableEq

/-- Embedding of `IniGroup` (src/scst/src/target.rs:540). -/
structure IniGroup where
  root : FsPath := []
  name : String := ""
  luns : List (String × Lun) := []
  initiators : List String := []
  deriving Repr, DecidableEq

/-- Embedding of `Target` (src/scst/src/target.rs:291). -/
structure Target where
  root : FsPath := []
  tid : String := ""
  name : String := ""
  enabled : Int := 0
  luns : List (String × Lun) := []
  ini_groups : List (String × IniGroup) := []
  deriving Repr, DecidableEq

/-- Embedding of `Driver` (src/scst/src/target.rs:16). -/
structure Driver where
  root : FsPath := []
  name : String := ""
  enabled : Int := 0
  open_state : String := ""
  version : String := ""
  targets : List (String × Target) := []
  deriving Repr, DecidableEq

/-- Embedding of `Handler` (src/scst/src/handler.rs:11). -/
structure Handler where
  root : FsPath := []
  name : String := ""
  type : String := ""
  devices : List (String × Device) := []
  deriving Repr, DecidableEq

/-- Embedding of `CopyManager` (src/scst/src/copy_manager.rs:9). -/
structure CopyManager where
  root : FsPath := []
  name : String := ""
  tgt : Target := {}
  deriving Repr, DecidableEq

/-- Embedding of `Scst` (src/scst/src/scst_tgt.rs:16). -/
structure Scst where
  root : FsPath := []
  version : String := ""
  handlers : List (String × Handler) := []
  iscsi_driver : Driver := {}
  copy_driver : CopyManager := {}
  deriving Repr, DecidableEq

/-! ### The configuration snapshot (src/scst/src/config.rs) -/

/-- Embedding of `DeviceCfg` (src/scst/src/config.rs:120). -/
structure DeviceCfg where
  name : String := ""
  filename : String := ""
  size : Nat := 0
  deriving Repr, DecidableEq

/-- Embedding of `HanderCfg` (src/scst/src/config.rs:84). -/
structure HandlerCfg where
  name : String := ""
  devices : List (String × DeviceCfg) := []
  deriving Repr, DecidableEq

/-- Embedding of `LunCfg` (src/scst/src/config.rs:318). -/
structure LunCfg where
  id : Nat := 0
  device : String := ""
  deriving Repr, DecidableEq

/-- Embedding of `IniGroupCfg` (src/scst/src/config.rs:264). -/
structure IniGroupCfg where
  name : String := ""
  luns : List LunCfg := []
  initiators : List String := []
  deriving Repr, DecidableEq

/-- Embedding of `TargetCfg` (src/scst/src/config.rs:197). -/
structure TargetCfg where
  name : String := ""
  enabled : Int := 0
  rel_tgt_id : Nat := 0
  luns : List LunCfg := []
  groups : List (String × IniGroupCfg) := []
  deriving Repr, DecidableEq

/-- Embedding of `DriverCfg` (src/scst/src/config.rs:154). -/
structure DriverCfg where
  name : String := ""
  enabled : Int := 0
  targets : List (String × TargetCfg) := []
  deriving Repr, DecidableEq

/-- Embedding of `Config` (src/scst/src/config.rs:10). -/
structure Config where
  version : String := ""
  handlers : List (String × HandlerCfg) := []
  drivers : List (String × DriverCfg) := []
  deriving Repr, DecidableEq

/-- `HanderCfg::devices()` returns the map's values. -/
def HandlerCfg.devicesList (hc : HandlerCfg) : List DeviceCfg :=
  hc.devices.map Prod.snd

/-- `TargetCfg::groups()` returns the map's values. -/
def TargetCfg.groupsList (tc : TargetCfg) : List IniGroupCfg :=
  tc.groups.map Prod.snd

/-- `DriverCfg::targets()` returns the map's values. -/
def DriverCfg.targetsList (dc : DriverCfg) : List TargetCfg :=
  dc.targets.map Prod.snd

/-- `Config::handlers()` returns the map's values. -/
def Config.handlersList (cfg : Config) : List HandlerCfg :=
  cfg.handlers.map Prod.snd

/-- `Config::drivers()` returns the map's values. -/
def Config.driversList (cfg : Config) : List DriverCfg :=
  cfg.drivers.map Prod.snd

/-! ### Side effects: write events and the reload oracle

Every attempted control-file write (the `echo` primitive,
src/scst/src/lib.rs:284, reached through `Layer::mgmt` or directly by the
enable/disable mutators) is recorded as an event.  Reloads of freshly
created children read the live kernel tree; they are abstracted as an
oracle environment answering each kind of `load`. -/

/-- A single attempted control-file write: the full path of the file and
the command string written to it. -/
inductive Event where
  | write (path : FsPath) (content : String)
  deriving Repr, DecidableEq

/-- An event is additive when it is an enable write of "1" or a
management command formed with one of the creating verbs the reconciler
uses (`add_device`, `add_target`, `add`, `create`); in particular it is
none of the removing commands (`del_device`, `del_target`, `del`,
`clear`, `move`) nor a disable write. -/
def Event.additiveShape : Event → Prop
  | .write path content =>
    (∃ p, path = p ++ ["enabled"] ∧ content = "1")
    ∨ (∃ p, path = p ++ ["mgmt"]
        ∧ ((∃ r, content = "add_device " ++ r)
          ∨ (∃ r, content = "add_target " ++ r)
          ∨ (∃ r, content = "add " ++ r)
          ∨ (∃ r, content = "create " ++ r)))

/-- The oracle environment: whether an `echo` write succeeds, and what
each child-reload returns (the reloaded entity, or the load's error). -/
structure Env where
  echoOk : FsPath → String → Bool
  loadDevice : FsPath → Except ScstErr Device
  loadLun : FsPath → Except ScstErr Lun
  loadGroup : FsPath → Except ScstErr IniGroup
  loadTarget : FsPath → Except ScstErr Target
  loadCopy : FsPath → Except ScstErr CopyManager

/-- Result of one mutator call: the operation's `Result`, the updated
in-memory entity, and the write events attempted in order. -/
abbrev OpResult (σ : Type) (α : Type) := Except ScstErr α × σ × List Event

/-! ### Entity mutators -/

/-- The allow-list of device attribute keys in `Handler::add_device`
(src/scst/src/handler.rs:66). -/
def addDeviceParams : List String :=
  ["active", "bind_alua_state", "blocksize", "cluster_mode", "dif_filename",
   "dif_mode", "dif_static_app_tag", "dif_type", "filename", "numa_node_id",
   "nv_cache", "read_only", "removable", "rotational", "thin_provisioned",
   "tst", "write_through"]

/-- Embedding of `Handler::add_device` (src/scst/src/handler.rs:53):
bail if the device key is cached, build the `add_device` command with
validated options, issue it through `mgmt` (wrapping a write failure into
`DeviceAddFail` with the cause nested), reload the new child and insert
it under its loaded name. -/
def Handler.add_device (h : Handler) (env : Env) (name filename : String)
    (options : Options) : OpResult Handler Unit :=
  if mapContains h.devices name then
    (.error (.deviceExists name), h, [])
  else
    match cmd_with_options ("add_device " ++ name ++ " filename=" ++ filename)
        addDeviceParams options with
    | .error e => (.error e, h, [])
    | .ok cmd =>
      let mgmtPath := h.root ++ ["mgmt"]
      if env.echoOk mgmtPath cmd then
        match env.loadDevice (h.root ++ [name]) with
        | .error e => (.error e, h, [.write mgmtPath cmd])
        | .ok device =>
          (.ok (), { h with devices := mapInsert h.devices device.name device },
            [.write mgmtPath cmd])
      else
        (.error (.deviceAddFail name .io), h, [.write mgmtPath cmd])

/-- Embedding of `Handler::del_device` (src/scst/src/handler.rs:110):
bail if the device key is absent, issue `del_device` through `mgmt`
(propagating a write failure unwrapped), remove the key from the cache. -/
def Handler.del_device (h : Handler) (env : Env) (name : String) :
    OpResult Handler Unit :=
  if mapContains h.devices name then
    let cmd := "del_device " ++ name
    let mgmtPath := h.root ++ ["mgmt"]
    if env.echoOk mgmtPath cmd then
      (.ok (), { h with devices := mapRemove h.devices name }, [.write mgmtPath cmd])
    else
      (.error .io, h, [.write mgmtPath cmd])
  else
    (.error (.noDevice name), h, [])

/-- Embedding of `Driver::enable` (src/scst/src/target.rs:38): write the
literal "1" to the `enabled` file and speculatively set the cached flag. -/
def Driver.enable (d : Driver) (env : Env) : OpResult Driver Unit :=
  let p := d.root ++ ["enabled"]
  if env.echoOk p "1" then
    (.ok (), { d with enabled := 1 }, [.write p "1"])
  else
    (.error .io, d, [.write p "1"])

/-- Embedding of `Driver::disable` (src/scst/src/target.rs:48). -/
def Driver.disable (d : Driver) (env : Env) : OpResult Driver Unit :=
  let p := d.root ++ ["enabled"]
  if env.echoOk p "0" then
    (.ok (), { d with enabled := 0 }, [.write p "0"])
  else
    (.error .io, d, [.write p "0"])

/-- The allow-list of target attribute keys in `Driver::add_target`
(src/scst/src/target.rs:100). -/
def addTargetParams : List String :=
  ["IncomingUser", "OutgoingUser", "allowed_portal"]

/-- Embedding of `Driver::add_target` (src/scst/src/target.rs:92): bail
if the target key is cached, build `add_target` appending checked-packed
options, issue it through `mgmt` (propagating a write failure unwrapped),
reload the new child, insert it under its loaded name, and finish with
`get_target_mut(name)`. -/
def Driver.add_target (d : Driver) (env : Env) (name : String)
    (options : Options) : OpResult Driver Unit :=
  if mapContains d.targets name then
    (.error (.targetExists name), d, [])
  else
    match options.check_pack addTargetParams with
    | .error e => (.error e, d, [])
    | .ok packed =>
      let cmd0 := "add_target " ++ name
      let cmd := match packed with
        | some s => cmd0 ++ " " ++ s
        | none => cmd0
      let mgmtPath := d.root ++ ["mgmt"]
      if env.echoOk mgmtPath cmd then
        match env.loadTarget (d.root ++ [name]) with
        | .error e => (.error e, d, [.write mgmtPath cmd])
        | .ok t =>
          let targets' := mapInsert d.targets t.name t
          let d' := { d with targets := targets' }
          if mapContains targets' name then
            (.ok (), d', [.write mgmtPath cmd])
          else
            (.error (.noTarget name), d', [.write mgmtPath cmd])
      else
        (.error .io, d, [.write mgmtPath cmd])

/-- Embedding of `Driver::del_target` (src/scst/src/target.rs:135): bail
if the target key is absent, issue `del_target` through `mgmt`
(propagating a write failure unwrapped), remove the key from the cache. -/
def Driver.del_target (d : Driver) (env : Env) (name : String) :
    OpResult Driver Unit :=
  if mapContains d.targets name then
    let cmd := "del_target " ++ name
    let mgmtPath := d.root ++ ["mgmt"]
    if env.echoOk mgmtPath cmd then
      (.ok (), { d with targets := mapRemove d.targets name }, [.write mgmtPath cmd])
    else
      (.error .io, d, [.write mgmtPath cmd])
  else
    (.error (.noTarget name), d, [])

/-- Embedding of `Target::enable` (src/scst/src/target.rs:318). -/
def Target.enable (t : Target) (env : Env) : OpResult Target Unit :=
  let p := t.root ++ ["enabled"]
  if env.echoOk p "1" then
    (.ok (), { t with enabled := 1 }, [.write p "1"])
  else
    (.error .io, t, [.write p "1"])

/-- Embedding of `Target::add_lun` (src/scst/src/target.rs:354): bail if
the LUN key (the raw id string) is cached, build `add <device> <id>` with
validated options, issue it to `luns/mgmt` (mapping a write failure to
`TargetAddLunFail`, the cause discarded), reload the new LUN and insert
it under its loaded name. -/
def Target.add_lun (t : Target) (env : Env) (device lun_id : String)
    (options : Options) : OpResult Target Unit :=
  if mapContains t.luns lun_id then
    (.error (.targetLunExists lun_id), t, [])
  else
    match cmd_with_options ("add " ++ device ++ " " ++ lun_id)
        ["read_only"] options with
    | .error e => (.error e, t, [])
    | .ok cmd =>
      let mgmtPath := t.root ++ ["luns", "mgmt"]
      if env.echoOk mgmtPath cmd then
        match env.loadLun (t.root ++ ["luns", lun_id]) with
        | .error e => (.error e, t, [.write mgmtPath cmd])
        | .ok lun =>
          (.ok (), { t with luns := mapInsert t.luns lun.name lun },
            [.write mgmtPath cmd])
      else
        (.error (.targetAddLunFail lun_id), t, [.write mgmtPath cmd])

/-- Embedding of `Target::set_lun` (src/scst/src/target.rs:375): the
mirror of `add_lun` with an existence precondition and the `replace`
verb, mapping a write failure to `LunSetAttrFail`. -/
def Target.set_lun (t : Target) (env : Env) (device lun_id : String)
    (options : Options) : OpResult Target Unit :=
  if mapContains t.luns lun_id then
    match cmd_with_options ("replace " ++ device ++ " " ++ lun_id)
        ["read_only"] options with
    | .error e => (.error e, t, [])
    | .ok cmd =>
      let mgmtPath := t.root ++ ["luns", "mgmt"]
      if env.echoOk mgmtPath cmd then
        match env.loadLun (t.root ++ ["luns", lun_id]) with
        | .error e => (.error e, t, [.write mgmtPath cmd])
        | .ok lun =>
          (.ok (), { t with luns := mapInsert t.luns lun.name lun },
            [.write mgmtPath cmd])
      else
        (.error (.lunSetAttrFail lun_id), t, [.write mgmtPath cmd])
  else
    (.error (.targetNoLun lun_id), t, [])

/-- Embedding of `Target::create_ini_group` (src/scst/src/target.rs:438):
bail if the group key is cached, issue `create <name>` to
`ini_groups/mgmt` (propagating a write failure unwrapped), reload the new
group, insert it under its loaded name, and finish with
`get_ini_group_mut(name)`. -/
def Target.create_ini_group (t : Target) (env : Env) (name : String) :
    OpResult Target Unit :=
  if mapContains t.ini_groups name then
    (.error (.groupExists name), t, [])
  else
    let cmd := "create " ++ name
    let mgmtPath := t.root ++ ["ini_groups", "mgmt"]
    if env.echoOk mgmtPath cmd then
      match env.loadGroup (t.root ++ ["ini_groups", name]) with
      | .error e => (.error e, t, [.write mgmtPath cmd])
      | .ok g =>
        let groups' := mapInsert t.ini_groups g.name g
        let t' := { t with ini_groups := groups' }
        if mapContains groups' name then
          (.ok (), t', [.write mgmtPath cmd])
        else
          (.error (.noGroup name), t', [.write mgmtPath cmd])
    else
      (.error .io, t, [.write mgmtPath cmd])

/-- Embedding of `IniGroup::add_lun` (src/scst/src/target.rs:582). -/
def IniGroup.add_lun (g : IniGroup) (env : Env) (device lun_id : String)
    (options : Options) : OpResult IniGroup Unit :=
  if mapContains g.luns lun_id then
    (.error (.groupLunExists lun_id), g, [])
  else
    match cmd_with_options ("add " ++ device ++ " " ++ lun_id)
        ["read_only"] options with
    | .error e => (.error e, g, [])
    | .ok cmd =>
      let mgmtPath := g.root ++ ["luns", "mgmt"]
      if env.echoOk mgmtPath cmd then
        match env.loadLun (g.root ++ ["luns", lun_id]) with
        | .error e => (.error e, g, [.write mgmtPath cmd])
        | .ok lun =>
          (.ok (), { g with luns := mapInsert g.luns lun.name lun },
            [.write mgmtPath cmd])
      else
        (.error (.groupAddLunFail lun_id), g, [.write mgmtPath cmd])

/-- Embedding of `IniGroup::set_lun` (src/scst/src/target.rs:603): the
mirror of the group's `add_lun` with an existence precondition and the
`replace` verb, mapping a write failure to `LunSetAttrFail`. -/
def IniGroup.set_lun (g : IniGroup) (env : Env) (device lun_id : String)
    (options : Options) : OpResult IniGroup Unit :=
  if mapContains g.luns lun_id then
    match cmd_with_options ("replace " ++ device ++ " " ++ lun_id)
        ["read_only"] options with
    | .error e => (.error e, g, [])
    | .ok cmd =>
      let mgmtPath := g.root ++ ["luns", "mgmt"]
      if env.echoOk mgmtPath cmd then
        match env.loadLun (g.root ++ ["luns", lun_id]) with
        | .error e => (.error e, g, [.write mgmtPath cmd])
        | .ok lun =>
          (.ok (), { g with luns := mapInsert g.luns lun.name lun },
            [.write mgmtPath cmd])
      else
        (.error (.lunSetAttrFail lun_id), g, [.write mgmtPath cmd])
  else
    (.error (.groupNoLun lun_id), g, [])

/-- Embedding of `IniGroup::add_initiator` (src/scst/src/target.rs:666):
bail if the initiator is already listed, issue `add <ini>` to
`initiators/mgmt` (mapping a write failure to `GroupAddIniFail`, cause
discarded), push the initiator onto the cached list. -/
def IniGroup.add_initiator (g : IniGroup) (env : Env) (ini : String) :
    OpResult IniGroup Unit :=
  if g.initiators.contains ini then
    (.error (.groupIniExists ini), g, [])
  else
    let cmd := "add " ++ ini
    let mgmtPath := g.root ++ ["initiators", "mgmt"]
    if env.echoOk mgmtPath cmd then
      (.ok (), { g with initiators := g.initiators ++ [ini] }, [.write mgmtPath cmd])
    else
      (.error (.groupAddIniFail ini), g, [.write mgmtPath cmd])

/-- Embedding of `IniGroup::move_initiator` (src/scst/src/target.rs:722):
bail if the initiator is not listed, issue `move <ini> <group>` to
`initiators/mgmt` (mapping a write failure to `GroupMoveIniFail`), and
return with the cached state untouched. -/
def IniGroup.move_initiator (g : IniGroup) (env : Env) (ini dest_group : String) :
    OpResult IniGroup Unit :=
  if g.initiators.contains ini then
    let cmd := "move " ++ ini ++ " " ++ dest_group
    let mgmtPath := g.root ++ ["initiators", "mgmt"]
    if env.echoOk mgmtPath cmd then
      (.ok (), g, [.write mgmtPath cmd])
    else
      (.error (.groupMoveIniFail ini), g, [.write mgmtPath cmd])
  else
    (.error (.groupNoIni ini), g, [])

/-- Embedding of `IniGroup::clear_initiators` (src/scst/src/target.rs:748):
issue `clear` to `initiators/mgmt` (mapping a write failure to
`GroupClearIniFail`), and return with the cached state untouched. -/
def IniGroup.clear_initiators (g : IniGroup) (env : Env) : OpResult IniGroup Unit :=
  let cmd := "clear"
  let mgmtPath := g.root ++ ["initiators", "mgmt"]
  if env.echoOk mgmtPath cmd then
    (.ok (), g, [.write mgmtPath cmd])
  else
    (.error (.groupClearIniFail), g, [.write mgmtPath cmd])

/-- Embedding of `Scst::add_device` (src/scst/src/scst_tgt.rs:96): look
up the handler, delegate to `Handler::add_device`, then reload the copy
manager subtree from disk; a reload failure fails the whole operation
even though the handler mutation already happened. -/
def Scst.add_device (s : Scst) (env : Env) (handler name filename : String)
    (options : Options) : OpResult Scst Unit :=
  match mapLookup s.handlers handler with
  | none => (.error (.noHandler handler), s, [])
  | some h =>
    match Handler.add_device h env name filename options with
    | (.error e, h', evs) =>
      (.error e, { s with handlers := mapInsert s.handlers handler h' }, evs)
    | (.ok _, h', evs) =>
      let s' := { s with handlers := mapInsert s.handlers handler h' }
      match env.loadCopy s'.copy_driver.root with
      | .error e => (.error e, s', evs)
      | .ok cm => (.ok (), { s' with copy_driver := cm }, evs)

/-- The LUN lookup key computed by `Scst::from_cfg`
(src/scst/src/scst_tgt.rs:180,197): the string "lun ", then the numeric
id. -/
def from_cfg_lun_key (id : Nat) : String :=
  "lun " ++ toString id

/-- Embedding of the device loop of `Scst::from_cfg`
(src/scst/src/scst_tgt.rs:155): for each configured device absent from
the handler's cache, call `add_device` with empty options; the first
error aborts. -/
def fromCfgDevices (h : Handler) (env : Env) : List DeviceCfg → OpResult Handler Unit
  | [] => (.ok (), h, [])
  | dev :: rest =>
    if mapContains h.devices dev.name then
      fromCfgDevices h env rest
    else
      match Handler.add_device h env dev.name dev.filename Options.new with
      | (.ok _, h', evs) =>
        let (r, h'', evs') := fromCfgDevices h' env rest
        (r, h'', evs ++ evs')
      | (.error e, h', evs) => (.error e, h', evs)

/-- Embedding of the target-LUN loop of `Scst::from_cfg`
(src/scst/src/scst_tgt.rs:179): the lookup uses the "lun <id>" key while
`add_lun` is keyed by the raw id string. -/
def fromCfgLuns (t : Target) (env : Env) : List LunCfg → OpResult Target Unit
  | [] => (.ok (), t, [])
  | lc :: rest =>
    if mapContains t.luns (from_cfg_lun_key lc.id) then
      fromCfgLuns t env rest
    else
      match Target.add_lun t env lc.device (toString lc.id) Options.new with
      | (.ok _, t', evs) =>
        let (r, t'', evs') := fromCfgLuns t' env rest
        (r, t'', evs ++ evs')
      | (.error e, t', evs) => (.error e, t', evs)

/-- Embedding of the group-LUN loop of `Scst::from_cfg`
(src/scst/src/scst_tgt.rs:196), with the same key mismatch. -/
def fromCfgGroupLuns (g : IniGroup) (env : Env) : List LunCfg → OpResult IniGroup Unit
  | [] => (.ok (), g, [])
  | lc :: rest =>
    if mapContains g.luns (from_cfg_lun_key lc.id) then
      fromCfgGroupLuns g env rest
    else
      match IniGroup.add_lun g env lc.device (toString lc.id) Options.new with
      | (.ok _, g', evs) =>
        let (r, g'', evs') := fromCfgGroupLuns g' env rest
        (r, g'', evs ++ evs')
      | (.error e, g', evs) => (.error e, g', evs)

/-- Embedding of the initiator loop of `Scst::from_cfg`
(src/scst/src/scst_tgt.rs:204). -/
def fromCfgInis (g : IniGroup) (env : Env) : List String → OpResult IniGroup Unit
  | [] => (.ok (), g, [])
  | ini :: rest =>
    if g.initiators.contains ini then
      fromCfgInis g env rest
    else
      match IniGroup.add_initiator g env ini with
      | (.ok _, g', evs) =>
        let (r, g'', evs') := fromCfgInis g' env rest
        (r, g'', evs ++ evs')
      | (.error e, g', evs) => (.error e, g', evs)

/-- Embedding of the group loop of `Scst::from_cfg`
(src/scst/src/scst_tgt.rs:187): fetch or create each group, run its LUN
and initiator loops, writing the group back at its configured key. -/
def fromCfgGroups (t : Target) (env : Env) : List IniGroupCfg → OpResult Target Unit
  | [] => (.ok (), t, [])
  | gc :: rest =>
    let step : OpResult Target Unit :=
      if mapContains t.ini_groups gc.name then (.ok (), t, [])
      else Target.create_ini_group t env gc.name
    match step with
    | (.error e, t', evs) => (.error e, t', evs)
    | (.ok _, t', evs) =>
      match mapLookup t'.ini_groups gc.name with
      | none => (.error (.noGroup gc.name), t', evs)
      | some g =>
        match fromCfgGroupLuns g env gc.luns with
        | (.error e, g', evs2) =>
          (.error e, { t' with ini_groups := mapInsert t'.ini_groups gc.name g' },
            evs ++ evs2)
        | (.ok _, g', evs2) =>
          match fromCfgInis g' env gc.initiators with
          | (.error e, g'', evs3) =>
            (.error e, { t' with ini_groups := mapInsert t'.ini_groups gc.name g'' },
              evs ++ evs2 ++ evs3)
          | (.ok _, g'', evs3) =>
            let t'' := { t' with ini_groups := mapInsert t'.ini_groups gc.name g'' }
            let (r, t3, evs4) := fromCfgGroups t'' env rest
            (r, t3, evs ++ evs2 ++ evs3 ++ evs4)

/-- Embedding of the target loop of `Scst::from_cfg`
(src/scst/src/scst_tgt.rs:169): fetch or create each target, run its LUN
and group loops, enable it when configured enabled, writing the target
back at its configured key. -/
def fromCfgTargets (d : Driver) (env : Env) : List TargetCfg → OpResult Driver Unit
  | [] => (.ok (), d, [])
  | tc :: rest =>
    let step : OpResult Driver Unit :=
      if mapContains d.targets tc.name then (.ok (), d, [])
      else Driver.add_target d env tc.name Options.new
    match step with
    | (.error e, d', evs) => (.error e, d', evs)
    | (.ok _, d', evs) =>
      match mapLookup d'.targets tc.name with
      | none => (.error (.noTarget tc.name), d', evs)
      | some t =>
        match fromCfgLuns t env tc.luns with
        | (.error e, t', evs2) =>
          (.error e, { d' with targets := mapInsert d'.targets tc.name t' },
            evs ++ evs2)
        | (.ok _, t', evs2) =>
          match fromCfgGroups t' env tc.groupsList with
          | (.error e, t'', evs3) =>
            (.error e, { d' with targets := mapInsert d'.targets tc.name t'' },
              evs ++ evs2 ++ evs3)
          | (.ok _, t'', evs3) =>
            let enableStep : OpResult Target Unit :=
              if tc.enabled = 1 then Target.enable t'' env
              else (.ok (), t'', [])
            match enableStep with
            | (.error e, t3, evs4) =>
              (.error e, { d' with targets := mapInsert d'.targets tc.name t3 },
                evs ++ evs2 ++ evs3 ++ evs4)
            | (.ok _, t3, evs4) =>
              let d'' := { d' with targets := mapInsert d'.targets tc.name t3 }
              let (r, d3, evs5) := fromCfgTargets d'' env rest
              (r, d3, evs ++ evs2 ++ evs3 ++ evs4 ++ evs5)

/-- Embedding of the driver loop of `Scst::from_cfg`
(src/scst/src/scst_tgt.rs:163): the live driver is always the iSCSI
driver; enable it when configured enabled, run the target loop, then
reload the copy manager subtree. -/
def fromCfgDrivers (s : Scst) (env : Env) : List DriverCfg → OpResult Scst Unit
  | [] => (.ok (), s, [])
  | dc :: rest =>
    let enableStep : OpResult Driver Unit :=
      if dc.enabled = 1 then Driver.enable s.iscsi_driver env
      else (.ok (), s.iscsi_driver, [])
    match enableStep with
    | (.error e, d', evs) => (.error e, { s with iscsi_driver := d' }, evs)
    | (.ok _, d', evs) =>
      match fromCfgTargets d' env dc.targetsList with
      | (.error e, d'', evs2) =>
        (.error e, { s with iscsi_driver := d'' }, evs ++ evs2)
      | (.ok _, d'', evs2) =>
        let s' := { s with iscsi_driver := d'' }
        match env.loadCopy s'.copy_driver.root with
        | .error e => (.error e, s', evs ++ evs2)
        | .ok cm =>
          let s'' := { s' with copy_driver := cm }
          let (r, s3, evs3) := fromCfgDrivers s'' env rest
          (r, s3, evs ++ evs2 ++ evs3)

/-- Embedding of the handler loop of `Scst::from_cfg`
(src/scst/src/scst_tgt.rs:153): an unknown handler kind fails hard; each
known handler runs the device loop and is written back at its key. -/
def fromCfgHandlers (s : Scst) (env : Env) : List HandlerCfg → OpResult Scst Unit
  | [] => (.ok (), s, [])
  | hc :: rest =>
    match mapLookup s.handlers hc.name with
    | none => (.error (.noHandler hc.name), s, [])
    | some h =>
      match fromCfgDevices h env hc.devicesList with
      | (.error e, h', evs) =>
        (.error e, { s with handlers := mapInsert s.handlers hc.name h' }, evs)
      | (.ok _, h', evs) =>
        let s' := { s with handlers := mapInsert s.handlers hc.name h' }
        let (r, s'', evs') := fromCfgHandlers s' env rest
        (r, s'', evs ++ evs')

/-- Embedding of `Scst::from_cfg` (src/scst/src/scst_tgt.rs:152): the
handler/device convergence pass, then the driver/target/LUN/group pass. -/
def Scst.from_cfg (s : Scst) (env : Env) (cfg : Config) : OpResult Scst Unit :=
  match fromCfgHandlers s env cfg.handlersList with
  | (.error e, s', evs) => (.error e, s', evs)
  | (.ok _, s', evs) =>
    let (r, s'', evs') := fromCfgDrivers s' env cfg.driversList
    (r, s'', evs ++ evs')

/-- Embedding of `Scst::del_device` (src/scst/src/scst_tgt.rs:124): look
up the handler, delegate to `Handler::del_device`, then reload the copy
manager subtree from disk; a reload failure fails the whole operation
even though the handler mutation already happened. -/
def Scst.del_device (s : Scst) (env : Env) (handler name : String) :
    OpResult Scst Unit :=
  match mapLookup s.handlers handler with
  | none => (.error (.noHandler handler), s, [])
  | some h =>
    match Handler.del_device h env name with
    | (.error e, h', evs) =>
      (.error e, { s with handlers := mapInsert s.handlers handler h' }, evs)
    | (.ok _, h', evs) =>
      let s' := { s with handlers := mapInsert s.handlers handler h' }
      match env.loadCopy s'.copy_driver.root with
      | .error e => (.error e, s', evs)
      | .ok cm => (.ok (), { s' with copy_driver := cm }, evs)

/-! ### The model filesystem and the `load` routines

The `load` embeddings mirror the Rust in-place mutation style: each takes
the current entity, assigns fields in source order, and stops at the
first failing read, returning the partially assigned entity together with
the failure. -/

/-- A node of the model filesystem: a regular file with its content, a
symbolic link with its target path, or a directory with named entries. -/
inductive FNode where
  | file (content : String)
  | link (target : String)
  | dir (entries : List (String × FNode))

/-- Mirrors `Path::is_dir`. -/
def FNode.isDir : FNode → Bool
  | .dir _ => true
  | _ => false

/-- Mirrors `Path::is_file`. -/
def FNode.isFile : FNode → Bool
  | .file _ => true
  | _ => false

/-- Resolve a child entry of a directory node, `none` when the node is
missing, not a directory, or lacks the entry. -/
def childNode : Option FNode → String → Option FNode
  | some (.dir es), name => mapLookup es name
  | _, _ => none

/-- Mirrors `read_dir` (src/scst/src/lib.rs:274): the entries of a
directory, or an I/O error. -/
def dirEntries : Option FNode → Except ScstErr (List (String × FNode))
  | some (.dir es) => .ok es
  | _ => .error .io

/-- Mirrors `read_fl` applied to a child attribute file
(src/scst/src/lib.rs:263): the first line of its content, or an I/O
error when the file is missing or not a regular file. -/
def readFlF (nd : Option FNode) (name : String) : Except ScstErr String :=
  match childNode nd name with
  | some (.file c) => .ok (read_fl c)
  | _ => .error .io

/-- Mirrors `PathBuf::file_name().unwrap_or("")` on a path string. -/
def lastComponent (s : String) : String :=
  ((s.splitOn "/").getLast?).getD ""

/-- Mirrors `read_link(..).file_name().unwrap_or("")`
(src/scst/src/lib.rs:279): the basename of a symlink's target, or an I/O
error when the entry is missing or not a symlink. -/
def readLinkF (nd : Option FNode) (name : String) : Except ScstErr String :=
  match childNode nd name with
  | some (.link t) => .ok (lastComponent t)
  | _ => .error .io

/-- Mirrors `Path::file_name().unwrap_or("")` on a model path. -/
def basename (p : FsPath) : String :=
  p.getLast?.getD ""

/-- Character-list core of `str::starts_with`. -/
def charsStart : List Char → List Char → Bool
  | [], _ => true
  | _ :: _, [] => false
  | p :: ps, c :: cs => (p = c) && charsStart ps cs

/-- Mirrors `str::starts_with` over the characters of the string. -/
def strStarts (s pre : String) : Bool :=
  charsStart pre.data s.data

/-- Decimal digit value of a character. -/
def digitVal (c : Char) : Option Nat :=
  if '0' ≤ c ∧ c ≤ '9' then some (c.toNat - '0'.toNat) else none

/-- Accumulate decimal digits; fails on any non-digit. -/
def parseDigitsAux : List Char → Nat → Option Nat
  | [], acc => some acc
  | c :: rest, acc =>
    match digitVal c with
    | some d => parseDigitsAux rest (acc * 10 + d)
    | none => none

/-- Parse a non-empty all-digit string. -/
def parseDigits : List Char → Option Nat
  | [] => none
  | cs => parseDigitsAux cs 0

/-- Mirrors Rust `str::parse::<i8>()`: optional sign, decimal digits,
range check; a parse failure surfaces through `anyhow` (`unknown`). -/
def parseI8 (s : String) : Except ScstErr Int :=
  match s.data with
  | '-' :: rest =>
    match parseDigits rest with
    | some n => if n ≤ 128 then .ok (-(n : Int)) else .error .unknown
    | none => .error .unknown
  | '+' :: rest =>
    match parseDigits rest with
    | some n => if n ≤ 127 then .ok (n : Int) else .error .unknown
    | none => .error .unknown
  | cs =>
    match parseDigits cs with
    | some n => if n ≤ 127 then .ok (n : Int) else .error .unknown
    | none => .error .unknown

/-- Mirrors Rust unsigned integer parsing with an inclusive upper bound
(`usize`, `u32`). -/
def parseNat (bound : Nat) (s : String) : Except ScstErr Nat :=
  match s.data with
  | '+' :: rest =>
    match parseDigits rest with
    | some n => if n ≤ bound then .ok n else .error .unknown
    | none => .error .unknown
  | cs =>
    match parseDigits cs with
    | some n => if n ≤ bound then .ok n else .error .unknown
    | none => .error .unknown

/-- Embedding of `Lun::load` (src/scst/src/target.rs:822): root and name
from the path, then the `device` link and the `read_only` attribute. -/
def Lun.loadF (l : Lun) (path : FsPath) (nd : Option FNode) : Lun × Option ScstErr :=
  let l := { l with root := path, name := basename path }
  match readLinkF nd "device" with
  | .error e => (l, some e)
  | .ok dev =>
    let l := { l with device := dev }
    match readFlF nd "read_only" with
    | .error e => (l, some e)
    | .ok ro =>
      match parseI8 ro with
      | .error e => (l, some e)
      | .ok v => ({ l with read_only := v }, none)

/-- Embedding of `Device::load` (src/scst/src/device.rs:57): root and
name from the path, then the `handler` link and the scalar attribute
files in source order. -/
def Device.loadF (d : Device) (path : FsPath) (nd : Option FNode) :
    Device × Option ScstErr :=
  let d := { d with root := path, name := basename path }
  match readLinkF nd "handler" with
  | .error e => (d, some e)
  | .ok hl =>
    let d := { d with handler := hl }
    match readFlF nd "filename" with
    | .error e => (d, some e)
    | .ok fl =>
      let d := { d with filename := fl }
      match (readFlF nd "active").bind parseI8 with
      | .error e => (d, some e)
      | .ok av =>
        let d := { d with active := av }
        match (readFlF nd "read_only").bind parseI8 with
        | .error e => (d, some e)
        | .ok ro =>
          let d := { d with read_only := ro }
          match (readFlF nd "size").bind (parseNat (2 ^ 64 - 1)) with
          | .error e => (d, some e)
          | .ok sz =>
            let d := { d with size := sz }
            match (readFlF nd "blocksize").bind (parseNat (2 ^ 32 - 1)) with
            | .error e => (d, some e)
            | .ok bs => ({ d with blocksize := bs }, none)

/-- Embedding of `IniGroup::load` (src/scst/src/target.rs:763): root and
name from the path, then the `luns` traversal (a failed LUN load keeps
the partially loaded LUN) and the `initiators` listing filtered to
regular files named with an "iqn" start. -/
def IniGroup.loadF (g : IniGroup) (path : FsPath) (nd : Option FNode) :
    IniGroup × Option ScstErr :=
  let g := { g with root := path, name := basename path }
  match dirEntries (childNode nd "luns") with
  | .error e => (g, some e)
  | .ok les =>
    let luns := collectPairs ((les.filter (fun kv => kv.2.isDir)).map (fun kv =>
      let lun := (Lun.loadF {} (path ++ ["luns", kv.1]) (some kv.2)).1
      (lun.name, lun)))
    let g := { g with luns := luns }
    match dirEntries (childNode nd "initiators") with
    | .error e => (g, some e)
    | .ok ies =>
      let inis :=
        (ies.filter (fun kv => kv.2.isFile && strStarts kv.1 "iqn")).map Prod.fst
      ({ g with initiators := inis }, none)

/-- Embedding of `Target::load` (src/scst/src/target.rs:503): root and
name from the path, the `tid` and `enabled` attributes, then the `luns`
and `ini_groups` traversals (failed children stay, partially loaded). -/
def Target.loadF (t : Target) (path : FsPath) (nd : Option FNode) :
    Target × Option ScstErr :=
  let t := { t with root := path, name := basename path }
  match readFlF nd "tid" with
  | .error e => (t, some e)
  | .ok tid =>
    let t := { t with tid := tid }
    match (readFlF nd "enabled").bind parseI8 with
    | .error e => (t, some e)
    | .ok en =>
      let t := { t with enabled := en }
      match dirEntries (childNode nd "luns") with
      | .error e => (t, some e)
      | .ok les =>
        let luns := collectPairs ((les.filter (fun kv => kv.2.isDir)).map (fun kv =>
          let lun := (Lun.loadF {} (path ++ ["luns", kv.1]) (some kv.2)).1
          (lun.name, lun)))
        let t := { t with luns := luns }
        match dirEntries (childNode nd "ini_groups") with
        | .error e => (t, some e)
        | .ok ges =>
          let groups :=
            collectPairs ((ges.filter (fun kv => kv.2.isDir)).map (fun kv =>
              let g := (IniGroup.loadF {} (path ++ ["ini_groups", kv.1])
                (some kv.2)).1
              (g.name, g)))
          ({ t with ini_groups := groups }, none)

/-- Embedding of `Driver::load` (src/scst/src/target.rs:258): root and
name from the path, the `enabled`, `open_state` and `version` attributes,
then the target traversal over "iqn"-started directories; each target's
name is pre-set from the directory entry and a failed target load keeps
the partially loaded target. -/
def Driver.loadF (d : Driver) (path : FsPath) (nd : Option FNode) :
    Driver × Option ScstErr :=
  let d := { d with root := path, name := basename path }
  match (readFlF nd "enabled").bind parseI8 with
  | .error e => (d, some e)
  | .ok en =>
    let d := { d with enabled := en }
    match readFlF nd "open_state" with
    | .error e => (d, some e)
    | .ok os =>
      let d := { d with open_state := os }
      match readFlF nd "version" with
      | .error e => (d, some e)
      | .ok ver =>
        let d := { d with version := ver }
        match dirEntries nd with
        | .error e => (d, some e)
        | .ok es =>
          let targets :=
            collectPairs
              ((es.filter (fun kv => kv.2.isDir && strStarts kv.1 "iqn")).map
                (fun kv =>
                  let t := (Target.loadF { name := kv.1 } (path ++ [kv.1])
                    (some kv.2)).1
                  (t.name, t)))
          ({ d with targets := targets }, none)

/-- Embedding of `Handler::load` (src/scst/src/handler.rs:131): name and
root from the path, the `type` attribute, then the device traversal over
all subdirectories; a failed device load keeps the partially loaded
device under its directory-derived name. -/
def Handler.loadF (h : Handler) (path : FsPath) (nd : Option FNode) :
    Handler × Option ScstErr :=
  let h := { h with name := basename path, root := path }
  match readFlF nd "type" with
  | .error e => (h, some e)
  | .ok ty =>
    let h := { h with type := ty }
    match dirEntries nd with
    | .error e => (h, some e)
    | .ok es =>
      let devices :=
        collectPairs ((es.filter (fun kv => kv.2.isDir)).map (fun kv =>
          let dev := (Device.loadF {} (path ++ [kv.1]) (some kv.2)).1
          (dev.name, dev)))
      ({ h with devices := devices }, none)

/-- Embedding of `CopyManager::load` (src/scst/src/copy_manager.rs:33):
root and name from the path, then the `copy_manager_tgt` target load
whose failure fails the whole load before `tgt` is assigned. -/
def CopyManager.loadF (cm : CopyManager) (path : FsPath) (nd : Option FNode) :
    CopyManager × Option ScstErr :=
  let cm := { cm with root := path, name := basename path }
  match Target.loadF { name := "copy_manager_tgt" } (path ++ ["copy_manager_tgt"])
      (childNode nd "copy_manager_tgt") with
  | (_, some e) => (cm, some e)
  | (t, none) => ({ cm with tgt := t }, none)

/-- Embedding of `Scst::load` (src/scst/src/scst_tgt.rs:252): the
`version` attribute, the handler traversal (a failed handler load keeps
the partially loaded handler), then the iSCSI and copy-manager driver
loads whose failures fail the whole load (wrapped transparently, modelled
here by propagating the cause). -/
def Scst.loadF (s : Scst) (path : FsPath) (nd : Option FNode) :
    Scst × Option ScstErr :=
  match readFlF nd "version" with
  | .error e => (s, some e)
  | .ok ver =>
    let s := { s with version := ver }
    match dirEntries (childNode nd "handlers") with
    | .error e => (s, some e)
    | .ok es =>
      let handlers :=
        collectPairs ((es.filter (fun kv => kv.2.isDir)).map (fun kv =>
          let h := (Handler.loadF {} (path ++ ["handlers", kv.1]) (some kv.2)).1
          (h.name, h)))
      let s := { s with handlers := handlers }
      match Driver.loadF {} (path ++ ["targets", "iscsi"])
          (childNode (childNode nd "targets") "iscsi") with
      | (_, some e) => (s, some e)
      | (isc, none) =>
        let s := { s with iscsi_driver := isc }
        match CopyManager.loadF {} (path ++ ["targets", "copy_manager"])
            (childNode (childNode nd "targets") "copy_manager") with
        | (_, some e) => (s, some e)
        | (cm, none) => ({ s with copy_driver := cm }, none)

/-! ### Concrete fixtures used by the witnesses and counterexamples -/

/-- An oracle that fails every write and every reload. -/
def envDeny : Env :=
  { echoOk := fun _ _ => false
    loadDevice := fun _ => .error .io
    loadLun := fun _ => .error .io
    loadGroup := fun _ => .error .io
    loadTarget := fun _ => .error .io
    loadCopy := fun _ => .error .io }

/-- An oracle whose writes succeed and whose reloads return a fresh
entity named after the loaded directory, as the kernel tree would. -/
def envLive : Env :=
  { echoOk := fun _ _ => true
    loadDevice := fun p => .ok { root := p, name := basename p }
    loadLun := fun p => .ok { root := p, name := basename p }
    loadGroup := fun p => .ok { root := p, name := basename p }
    loadTarget := fun p => .ok { root := p, name := basename p }
    loadCopy := fun p => .ok { root := p } }

/-- A handler caching one device named "d". -/
def handlerFix : Handler :=
  { root := ["h"], name := "vdisk_blockio",
    devices := [("d", { name := "d" })] }

/-- A driver caching one target named "iqn.t". -/
def driverFix : Driver :=
  { root := ["d"], name := "iscsi",
    targets := [("iqn.t", { name := "iqn.t" })] }

/-- A target caching a LUN under the raw key "0" and a group named "grp". -/
def targetFix : Target :=
  { root := ["t"], name := "iqn.t",
    luns := [("0", { name := "0", device := "d" })],
    ini_groups := [("grp", { name := "grp" })] }

/-- A group caching a LUN under the raw key "0" and one initiator. -/
def groupFix : IniGroup :=
  { root := ["g"], name := "grp",
    luns := [("0", { name := "0", device := "d" })],
    initiators := ["iqn.client"] }

/-- A target with empty LUN and group maps. -/
def targetEmpty : Target := { root := ["t"], name := "iqn.t" }

/-- A full live snapshot: the fixture handler with its device, the
fixture target (LUN "0", group "grp") under the iSCSI driver, and a copy
manager rooted at "cm". -/
def iscsiFix : Driver :=
  { root := ["d"], name := "iscsi", targets := [("iqn.t", targetFix)] }

/-- The full live snapshot assembled from the fixtures above. -/
def scstFix : Scst :=
  { root := [], version := "3.7",
    handlers := [("vdisk_blockio", handlerFix)],
    iscsi_driver := iscsiFix,
    copy_driver := { root := ["cm"], name := "copy_manager" } }

/-- A configured handler matching `handlerFix` and its device. -/
def hcMatch : HandlerCfg :=
  { name := "vdisk_blockio",
    devices := [("d", { name := "d", filename := "/dev/sdb" })] }

/-- A configured target matching `targetFix`: disabled, no LUN entries,
the group "grp" with no LUNs and no initiators. -/
def tcMatch : TargetCfg :=
  { name := "iqn.t", enabled := 0, luns := [],
    groups := [("grp", { name := "grp" })] }

/-- A configuration describing exactly the entities cached in `scstFix`,
with the driver and target disabled and no LUN entries. -/
def cfgMatch : Config :=
  { handlers := [("vdisk_blockio", hcMatch)],
    drivers := [("iscsi", { name := "iscsi", enabled := 0, targets := [("iqn.t", tcMatch)] })] }

/-- A configured target listing one LUN with id 0. -/
def tcLun0 : TargetCfg :=
  { name := "iqn.t", enabled := 0, luns := [{ id := 0, device := "d" }] }

/-- A configuration whose only content is a LUN with id 0 on the fixture
target — a LUN that `scstFix` already caches under the key "0". -/
def cfgLunPresent : Config :=
  { drivers := [("iscsi", { name := "iscsi", enabled := 0, targets := [("iqn.t", tcLun0)] })] }

/-- A configuration describing nothing but an enabled iSCSI driver. -/
def cfgEnabledDriver : Config :=
  { drivers := [("iscsi", { name := "iscsi", enabled := 1, targets := [] })] }

/-- The live oracle with a failing copy-manager reload. -/
def envCopyFail : Env :=
  { envLive with loadCopy := fun _ => .error .io }

/-- The fixture handler after adding a device "e" reloaded from the live
oracle. -/
def handlerFixAdded : Handler :=
  { handlerFix with
    devices := mapInsert handlerFix.devices "e" { root := ["h", "e"], name := "e" } }

/-- The fixture handler after removing the device "d". -/
def handlerFixRemoved : Handler :=
  { handlerFix with devices := mapRemove handlerFix.devices "d" }

/-- A model handler directory holding its `type` attribute and one device
subdirectory that is empty, so the device's own load fails. -/
def handlerNode : FNode :=
  .dir [("type", .file "vdisk_blockio"), ("disk1", .dir [])]

/-- A model driver directory with all scalar attributes present and one
"iqn"-named target subdirectory that is empty, so the target's own load
fails. -/
def driverNode : FNode :=
  .dir [("enabled", .file "1"), ("open_state", .file "open"),
    ("version", .file "3.7"), ("iqn.t", .dir [])]

/-- A model target directory with its scalars and `luns`/`ini_groups`
directories, each holding one empty child whose own load fails. -/
def targetNode : FNode :=
  .dir [("tid", .file "1"), ("enabled", .file "1"),
    ("luns", .dir [("0", .dir [])]),
    ("ini_groups", .dir [("grp", .dir [])])]

/-- A model root directory: version, a handlers directory holding one
handler without its `type` file (so that handler's load fails), and a
targets directory with loadable `iscsi` and `copy_manager` subtrees. -/
def scstNode : FNode :=
  .dir [("version", .file "3.7"),
    ("handlers", .dir [("vdisk_blockio", .dir [])]),
    ("targets", .dir [
      ("iscsi", .dir [("enabled", .file "1"), ("open_state", .file "open"),
        ("version", .file "3.7")]),
      ("copy_manager", .dir [("copy_manager_tgt", .dir [
        ("tid", .file "0"), ("enabled", .file "0"),
        ("luns", .dir []), ("ini_groups", .dir [])])])])]

/-! ### Verification of the claims -/

/-! #### Helper lemmas about the map and split primitives -/

theorem mapLookup_insert {α : Type} (m : List (String × α)) (k : String) (v : α) :
    mapLookup (mapInsert m k v) k = some v := by
  induction m with
  | nil => simp [mapInsert, mapLookup]
  | cons hd tl ih =>
    by_cases h : hd.1 = k
    · simp [mapInsert, h, mapLookup]
    · simp [mapInsert, h, mapLookup, ih]

theorem mapLookup_insert_ne {α : Type} (m : List (String × α)) (k k' : String)
    (v : α) (h : k ≠ k') : mapLookup (mapInsert m k v) k' = mapLookup m k' := by
  induction m with
  | nil => simp [mapInsert, mapLookup, h]
  | cons hd tl ih =>
    by_cases hk : hd.1 = k
    · simp [mapInsert, hk, mapLookup, h]
    · by_cases hk' : hd.1 = k'
      · simp [mapInsert, hk, mapLookup, hk', Ne.symm h]
      · simp [mapInsert, hk, mapLookup, hk', ih]

/-- Re-inserting the value already bound to a key leaves the map unchanged. -/
theorem mapInsert_self {α : Type} (m : List (String × α)) (k : String) (v : α)
    (h : mapLookup m k = some v) : mapInsert m k v = m := by
  induction m with
  | nil => simp [mapLookup] at h
  | cons hd tl ih =>
    obtain ⟨a, b⟩ := hd
    by_cases hk : a = k
    · simp [mapLookup, hk] at h
      simp [mapInsert, hk, h]
    · simp [mapLookup, hk] at h
      simp [mapInsert, hk, ih h]

theorem mapContains_insert {α : Type} (m : List (String × α)) (k k' : String)
    (v : α) (h : mapContains m k' = true) :
    mapContains (mapInsert m k v) k' = true := by
  by_cases hk : k = k'
  · simp [mapContains, hk, mapLookup_insert]
  · simpa [mapContains, mapLookup_insert_ne m k k' v hk] using h

theorem mapContains_insert_self {α : Type} (m : List (String × α)) (k : String)
    (v : α) : mapContains (mapInsert m k v) k = true := by
  simp [mapContains, mapLookup_insert]

theorem mem_collectPairs_aux {α : Type} (l : List (String × α)) (acc : List (String × α))
    (k : String) (h : mapContains acc k = true ∨ ∃ v, (k, v) ∈ l) :
    mapContains (l.foldl (fun m kv => mapInsert m kv.1 kv.2) acc) k = true := by
  induction l generalizing acc with
  | nil =>
    rcases h with h | ⟨v, hv⟩
    · simpa using h
    · simp at hv
  | cons hd tl ih =>
    simp only [List.foldl_cons]
    apply ih
    rcases h with h | ⟨v, hv⟩
    · exact Or.inl (mapContains_insert _ _ _ _ h)
    · rcases List.mem_cons.mp hv with h1 | h2
      · left
        rw [← h1]
        exact mapContains_insert_self _ _ _
      · exact Or.inr ⟨v, h2⟩

/-- A key occurring among collected pairs is present in the collected map. -/
theorem mem_collectPairs {α : Type} (l : List (String × α)) (k : String)
    (h : ∃ v, (k, v) ∈ l) : mapContains (collectPairs l) k = true :=
  mem_collectPairs_aux l [] k (Or.inr h)

theorem splitNl_ne_nil (cs : List Char) : splitNl cs ≠ [] := by
  cases cs with
  | nil => simp [splitNl]
  | cons c rest =>
    by_cases h : c = '\n'
    · simp [splitNl, h]
    · simp only [splitNl, h, if_false]
      cases splitNl rest with
      | nil => simp
      | cons seg segs => simp

theorem splitNl_append_nl (first rest : List Char) (h : '\n' ∉ first) :
    splitNl (first ++ '\n' :: rest) = first :: splitNl rest := by
  induction first with
  | nil => simp [splitNl]
  | cons c cs ih =>
    have hc : c ≠ '\n' := fun hh => h (hh ▸ List.mem_cons_self c cs)
    have hcs : '\n' ∉ cs := fun hh => h (List.mem_cons_of_mem c hh)
    simp only [List.cons_append, splitNl, hc, if_false, List.append_eq, ih hcs]

theorem splitNl_no_nl (s : List Char) (h : '\n' ∉ s) : splitNl s = [s] := by
  induction s with
  | nil => simp [splitNl]
  | cons c cs ih =>
    have hc : c ≠ '\n' := fun hh => h (hh ▸ List.mem_cons_self c cs)
    have hcs : '\n' ∉ cs := fun hh => h (List.mem_cons_of_mem c hh)
    simp [splitNl, hc, ih hcs]


/-- C8: `read_fl` keeps exactly the first line of a multi-line file
content, with no trailing newline; a content without newline is returned
whole; in particular the content "3.1\nDEBUG" yields "3.1". -/
theorem read_fl_returns_first_line :
    (∀ first rest : List Char, '\n' ∉ first →
      read_fl_chars (first ++ '\n' :: rest) = first)
    ∧ (∀ s : List Char, '\n' ∉ s → read_fl_chars s = s)
    ∧ read_fl "3.1\nDEBUG" = "3.1" := by
  refine ⟨fun first rest h => ?_, fun s h => ?_, rfl⟩
  · simp [read_fl_chars, splitNl_append_nl first rest h]
  · simp [read_fl_chars, splitNl_no_nl s h]

/-- C8 witness: the first-line property instantiated at the content
"3.1\nDEBUG". -/
theorem read_fl_returns_first_line_witness :
    '\n' ∉ ['3', '.', '1']
    ∧ read_fl_chars (['3', '.', '1'] ++ '\n' :: ['D', 'E', 'B', 'U', 'G'])
        = ['3', '.', '1'] :=
  ⟨by decide,
   read_fl_returns_first_line.1 ['3', '.', '1'] ['D', 'E', 'B', 'U', 'G'] (by decide)⟩

/-- C5: `different_set` keeps exactly the present keys that ARE in the
allow-list (an intersection) instead of the spec's set-difference of
present keys minus allowed keys: on a map holding only the allowed key
"read_only" it returns that key (so checked packing against a superset
allow-list would fail), and on a map holding only the offending key "foo"
it returns nothing (so the offending key would pass unlisted). -/
theorem different_set_computes_intersection :
    Options.different_set ⟨[("read_only", "1")]⟩ ["read_only"] = ["read_only"]
    ∧ Options.spec_difference ⟨[("read_only", "1")]⟩ ["read_only"] = []
    ∧ Options.different_set ⟨[("foo", "1")]⟩ ["read_only"] = []
    ∧ Options.spec_difference ⟨[("foo", "1")]⟩ ["read_only"] = ["foo"] :=
  ⟨rfl, rfl, rfl, rfl⟩

/-- C4: every add operation whose key is already cached fails with the
corresponding already-exists error carrying that key, leaves the cached
entity unchanged, and attempts no filesystem write. -/
theorem add_ops_cached_key_no_write :
    (∀ (h : Handler) (env : Env) (n f : String) (o : Options),
      mapContains h.devices n = true →
      Handler.add_device h env n f o = (.error (.deviceExists n), h, []))
    ∧ (∀ (d : Driver) (env : Env) (n : String) (o : Options),
      mapContains d.targets n = true →
      Driver.add_target d env n o = (.error (.targetExists n), d, []))
    ∧ (∀ (t : Target) (env : Env) (dev id : String) (o : Options),
      mapContains t.luns id = true →
      Target.add_lun t env dev id o = (.error (.targetLunExists id), t, []))
    ∧ (∀ (t : Target) (env : Env) (n : String),
      mapContains t.ini_groups n = true →
      Target.create_ini_group t env n = (.error (.groupExists n), t, []))
    ∧ (∀ (g : IniGroup) (env : Env) (dev id : String) (o : Options),
      mapContains g.luns id = true →
      IniGroup.add_lun g env dev id o = (.error (.groupLunExists id), g, []))
    ∧ (∀ (g : IniGroup) (env : Env) (i : String),
      g.initiators.contains i = true →
      IniGroup.add_initiator g env i = (.error (.groupIniExists i), g, [])) := by
  refine ⟨?_, ?_, ?_, ?_, ?_, ?_⟩
  · intro h env n f o hc; simp [Handler.add_device, hc]
  · intro d env n o hc; simp [Driver.add_target, hc]
  · intro t env dev id o hc; simp [Target.add_lun, hc]
  · intro t env n hc; simp [Target.create_ini_group, hc]
  · intro g env dev id o hc; simp [IniGroup.add_lun, hc]
  · intro g env i hc
    have hmem : i ∈ g.initiators := by simpa using hc
    simp [IniGroup.add_initiator, hmem]

/-- C4 witness: each of the six add operations invoked with its cached
key on the concrete fixtures. -/
theorem add_ops_cached_key_no_write_witness :
    Handler.add_device handlerFix envDeny "d" "/dev/sdb" Options.new
      = (.error (.deviceExists "d"), handlerFix, [])
    ∧ Driver.add_target driverFix envDeny "iqn.t" Options.new
      = (.error (.targetExists "iqn.t"), driverFix, [])
    ∧ Target.add_lun targetFix envDeny "d" "0" Options.new
      = (.error (.targetLunExists "0"), targetFix, [])
    ∧ Target.create_ini_group targetFix envDeny "grp"
      = (.error (.groupExists "grp"), targetFix, [])
    ∧ IniGroup.add_lun groupFix envDeny "d" "0" Options.new
      = (.error (.groupLunExists "0"), groupFix, [])
    ∧ IniGroup.add_initiator groupFix envDeny "iqn.client"
      = (.error (.groupIniExists "iqn.client"), groupFix, []) :=
  ⟨add_ops_cached_key_no_write.1 handlerFix envDeny "d" "/dev/sdb" Options.new (by decide),
   add_ops_cached_key_no_write.2.1 driverFix envDeny "iqn.t" Options.new (by decide),
   add_ops_cached_key_no_write.2.2.1 targetFix envDeny "d" "0" Options.new (by decide),
   add_ops_cached_key_no_write.2.2.2.1 targetFix envDeny "grp" (by decide),
   add_ops_cached_key_no_write.2.2.2.2.1 groupFix envDeny "d" "0" Options.new (by decide),
   add_ops_cached_key_no_write.2.2.2.2.2 groupFix envDeny "iqn.client" (by decide)⟩

/-- C10: a successful `move_initiator` and a successful
`clear_initiators` both return with the source group's cached state
untouched — in particular the moved initiator is still listed — and only
issue the single management command. -/
theorem move_clear_initiators_keep_cache :
    (∀ (g : IniGroup) (env : Env) (ini dest : String),
      g.initiators.contains ini = true →
      env.echoOk (g.root ++ ["initiators", "mgmt"])
        ("move " ++ ini ++ " " ++ dest) = true →
      IniGroup.move_initiator g env ini dest =
        (.ok (), g, [.write (g.root ++ ["initiators", "mgmt"])
          ("move " ++ ini ++ " " ++ dest)]))
    ∧ (∀ (g : IniGroup) (env : Env),
      env.echoOk (g.root ++ ["initiators", "mgmt"]) "clear" = true →
      IniGroup.clear_initiators g env =
        (.ok (), g, [.write (g.root ++ ["initiators", "mgmt"]) "clear"])) := by
  constructor
  · intro g env ini dest hc he
    have hmem : ini ∈ g.initiators := by simpa using hc
    simp [IniGroup.move_initiator, hmem, he]
  · intro g env he; simp [IniGroup.clear_initiators, he]

/-- C10 witness: moving the cached initiator out of the fixture group and
clearing the fixture group both leave its cached initiator list intact. -/
theorem move_clear_initiators_keep_cache_witness :
    IniGroup.move_initiator groupFix envLive "iqn.client" "grp2" =
      (.ok (), groupFix, [.write ["g", "initiators", "mgmt"]
        ("move " ++ "iqn.client" ++ " " ++ "grp2")])
    ∧ IniGroup.clear_initiators groupFix envLive =
      (.ok (), groupFix, [.write ["g", "initiators", "mgmt"] "clear"]) :=
  ⟨move_clear_initiators_keep_cache.1 groupFix envLive "iqn.client" "grp2"
     (by decide) rfl,
   move_clear_initiators_keep_cache.2 groupFix envLive rfl⟩

/-- C6 counterexample: `Handler::del_device` on a cached device whose
mgmt write fails returns the bare I/O error — not the operation-specific
`DeviceRemFail` error carrying the key. -/
theorem del_device_mgmt_failure_unwrapped :
    Handler.del_device handlerFix envDeny "d" =
      (.error .io, handlerFix, [.write ["h", "mgmt"] ("del_device " ++ "d")])
    ∧ (Handler.del_device handlerFix envDeny "d").1 ≠ .error (.deviceRemFail "d") := by
  constructor
  · rfl
  · have h1 : (Handler.del_device handlerFix envDeny "d").1 = .error .io := rfl
    rw [h1]
    simp

/-- C6 (amended): when the mgmt write fails, `Handler::add_device` wraps
the failure into `DeviceAddFail` carrying the key with the I/O cause
nested; `Handler::del_device`, `Driver::add_target` and
`Driver::del_target` return the I/O error unwrapped; and
`Target::add_lun` wraps it into `TargetAddLunFail` carrying the key but
discards the cause. -/
theorem mgmt_failure_wrapping_per_mutator :
    (∀ (h : Handler) (env : Env) (n f : String),
      mapContains h.devices n = false →
      env.echoOk (h.root ++ ["mgmt"]) ("add_device " ++ n ++ " filename=" ++ f) = false →
      Handler.add_device h env n f Options.new =
        (.error (.deviceAddFail n .io), h,
          [.write (h.root ++ ["mgmt"]) ("add_device " ++ n ++ " filename=" ++ f)]))
    ∧ (∀ (h : Handler) (env : Env) (n : String),
      mapContains h.devices n = true →
      env.echoOk (h.root ++ ["mgmt"]) ("del_device " ++ n) = false →
      Handler.del_device h env n =
        (.error .io, h, [.write (h.root ++ ["mgmt"]) ("del_device " ++ n)]))
    ∧ (∀ (d : Driver) (env : Env) (n : String),
      mapContains d.targets n = false →
      env.echoOk (d.root ++ ["mgmt"]) ("add_target " ++ n) = false →
      Driver.add_target d env n Options.new =
        (.error .io, d, [.write (d.root ++ ["mgmt"]) ("add_target " ++ n)]))
    ∧ (∀ (d : Driver) (env : Env) (n : String),
      mapContains d.targets n = true →
      env.echoOk (d.root ++ ["mgmt"]) ("del_target " ++ n) = false →
      Driver.del_target d env n =
        (.error .io, d, [.write (d.root ++ ["mgmt"]) ("del_target " ++ n)]))
    ∧ (∀ (t : Target) (env : Env) (dev id : String),
      mapContains t.luns id = false →
      env.echoOk (t.root ++ ["luns", "mgmt"]) ("add " ++ dev ++ " " ++ id) = false →
      Target.add_lun t env dev id Options.new =
        (.error (.targetAddLunFail id), t,
          [.write (t.root ++ ["luns", "mgmt"]) ("add " ++ dev ++ " " ++ id)])) := by
  refine ⟨?_, ?_, ?_, ?_, ?_⟩
  · intro h env n f hc he
    simp [Handler.add_device, cmd_with_options, Options.check_pack,
      Options.spec_difference, Options.new, hc, he]
  · intro h env n hc he
    simp [Handler.del_device, hc, he]
  · intro d env n hc he
    simp [Driver.add_target, Options.check_pack, Options.spec_difference,
      Options.new, hc, he]
  · intro d env n hc he
    simp [Driver.del_target, hc, he]
  · intro t env dev id hc he
    simp [Target.add_lun, cmd_with_options, Options.check_pack,
      Options.spec_difference, Options.new, hc, he]

/-- C6 witness: each wrapping behavior at the concrete fixtures with a
write-denying oracle. -/
theorem mgmt_failure_wrapping_per_mutator_witness :
    Handler.add_device handlerFix envDeny "e" "/dev/sdc" Options.new =
      (.error (.deviceAddFail "e" .io), handlerFix,
        [.write (["h"] ++ ["mgmt"]) ("add_device " ++ "e" ++ " filename=" ++ "/dev/sdc")])
    ∧ Handler.del_device handlerFix envDeny "d" =
      (.error .io, handlerFix, [.write (["h"] ++ ["mgmt"]) ("del_device " ++ "d")])
    ∧ Driver.add_target driverFix envDeny "iqn.new" Options.new =
      (.error .io, driverFix, [.write (["d"] ++ ["mgmt"]) ("add_target " ++ "iqn.new")])
    ∧ Driver.del_target driverFix envDeny "iqn.t" =
      (.error .io, driverFix, [.write (["d"] ++ ["mgmt"]) ("del_target " ++ "iqn.t")])
    ∧ Target.add_lun targetFix envDeny "d" "1" Options.new =
      (.error (.targetAddLunFail "1"), targetFix,
        [.write (["t"] ++ ["luns", "mgmt"]) ("add " ++ "d" ++ " " ++ "1")]) :=
  ⟨mgmt_failure_wrapping_per_mutator.1 handlerFix envDeny "e" "/dev/sdc" (by decide) rfl,
   mgmt_failure_wrapping_per_mutator.2.1 handlerFix envDeny "d" (by decide) rfl,
   mgmt_failure_wrapping_per_mutator.2.2.1 driverFix envDeny "iqn.new" (by decide) rfl,
   mgmt_failure_wrapping_per_mutator.2.2.2.1 driverFix envDeny "iqn.t" (by decide) rfl,
   mgmt_failure_wrapping_per_mutator.2.2.2.2 targetFix envDeny "d" "1" (by decide) rfl⟩

/-! #### Basename and load-name helper lemmas -/

theorem basename_append (p : FsPath) (x : String) : basename (p ++ [x]) = x := by
  simp [basename]

theorem lun_loadF_name (l : Lun) (p : FsPath) (nd : Option FNode) :
    (Lun.loadF l p nd).1.name = basename p := by
  simp only [Lun.loadF]
  repeat' split
  all_goals rfl

theorem device_loadF_name (d : Device) (p : FsPath) (nd : Option FNode) :
    (Device.loadF d p nd).1.name = basename p := by
  simp only [Device.loadF]
  repeat' split
  all_goals rfl

theorem group_loadF_name (g : IniGroup) (p : FsPath) (nd : Option FNode) :
    (IniGroup.loadF g p nd).1.name = basename p := by
  simp only [IniGroup.loadF]
  repeat' split
  all_goals rfl

theorem target_loadF_name (t : Target) (p : FsPath) (nd : Option FNode) :
    (Target.loadF t p nd).1.name = basename p := by
  simp only [Target.loadF]
  repeat' split
  all_goals rfl

theorem handler_loadF_name (h : Handler) (p : FsPath) (nd : Option FNode) :
    (Handler.loadF h p nd).1.name = basename p := by
  simp only [Handler.loadF]
  repeat' split
  all_goals rfl

/-- C2 counterexample: after adding a LUN with id 0 to a target with an
empty LUN map, the stored cache key is the raw id string "0"; the key
"lun 0" — the fixed string prefix "lun " concatenated with the id, as the
reconciler derives it — is absent from the cache. -/
theorem lun_cache_key_unprefixed_counterexample :
    (Target.add_lun targetEmpty envLive "d" "0" Options.new).2.1.luns.map Prod.fst = ["0"]
    ∧ mapLookup (Target.add_lun targetEmpty envLive "d" "0" Options.new).2.1.luns
        (from_cfg_lun_key 0) = none
    ∧ from_cfg_lun_key 0 = "lun 0" :=
  ⟨rfl, rfl, rfl⟩

/-- C2 (amended): a LUN's cache key is the raw decimal id string — the
LUN directory's basename — with no prefix, for every id including zero:
`add_lun` and `set_lun` on targets and groups insert under the reloaded
LUN's name (the id string), `load` keys every LUN directory child by its
directory name, and the reconciler's "lun <id>" lookup key never equals
such a raw key. -/
theorem lun_cache_key_is_raw_id :
    (∀ (t : Target) (env : Env) (dev : String) (n : Nat) (l : Lun),
      mapContains t.luns (toString n) = false →
      env.echoOk (t.root ++ ["luns", "mgmt"]) ("add " ++ dev ++ " " ++ toString n) = true →
      env.loadLun (t.root ++ ["luns", toString n]) = .ok l →
      l.name = toString n →
      (Target.add_lun t env dev (toString n) Options.new).2.1.luns
        = mapInsert t.luns (toString n) l)
    ∧ (∀ (t : Target) (env : Env) (dev : String) (n : Nat) (l : Lun),
      mapContains t.luns (toString n) = true →
      env.echoOk (t.root ++ ["luns", "mgmt"]) ("replace " ++ dev ++ " " ++ toString n) = true →
      env.loadLun (t.root ++ ["luns", toString n]) = .ok l →
      l.name = toString n →
      (Target.set_lun t env dev (toString n) Options.new).2.1.luns
        = mapInsert t.luns (toString n) l)
    ∧ (∀ (g : IniGroup) (env : Env) (dev : String) (n : Nat) (l : Lun),
      mapContains g.luns (toString n) = false →
      env.echoOk (g.root ++ ["luns", "mgmt"]) ("add " ++ dev ++ " " ++ toString n) = true →
      env.loadLun (g.root ++ ["luns", toString n]) = .ok l →
      l.name = toString n →
      (IniGroup.add_lun g env dev (toString n) Options.new).2.1.luns
        = mapInsert g.luns (toString n) l)
    ∧ (∀ (g : IniGroup) (env : Env) (dev : String) (n : Nat) (l : Lun),
      mapContains g.luns (toString n) = true →
      env.echoOk (g.root ++ ["luns", "mgmt"]) ("replace " ++ dev ++ " " ++ toString n) = true →
      env.loadLun (g.root ++ ["luns", toString n]) = .ok l →
      l.name = toString n →
      (IniGroup.set_lun g env dev (toString n) Options.new).2.1.luns
        = mapInsert g.luns (toString n) l)
    ∧ (∀ (t0 : Target) (path : FsPath) (nd : Option FNode)
        (tv : String) (ev : Int) (les ges : List (String × FNode))
        (n : String) (sub : FNode),
      readFlF nd "tid" = .ok tv →
      (readFlF nd "enabled").bind parseI8 = .ok ev →
      dirEntries (childNode nd "luns") = .ok les →
      dirEntries (childNode nd "ini_groups") = .ok ges →
      (n, sub) ∈ les → sub.isDir = true →
      mapContains (Target.loadF t0 path nd).1.luns n = true)
    ∧ (∀ (g0 : IniGroup) (path : FsPath) (nd : Option FNode)
        (les ies : List (String × FNode)) (n : String) (sub : FNode),
      dirEntries (childNode nd "luns") = .ok les →
      dirEntries (childNode nd "initiators") = .ok ies →
      (n, sub) ∈ les → sub.isDir = true →
      mapContains (IniGroup.loadF g0 path nd).1.luns n = true)
    ∧ (∀ n : Nat, from_cfg_lun_key n ≠ toString n) := by
  refine ⟨?_, ?_, ?_, ?_, ?_, ?_, ?_⟩
  · intro t env dev n l hc he hl hn
    simp [Target.add_lun, cmd_with_options, Options.check_pack,
      Options.spec_difference, Options.new, hc, he, hl, hn]
  · intro t env dev n l hc he hl hn
    simp [Target.set_lun, cmd_with_options, Options.check_pack,
      Options.spec_difference, Options.new, hc, he, hl, hn]
  · intro g env dev n l hc he hl hn
    simp [IniGroup.add_lun, cmd_with_options, Options.check_pack,
      Options.spec_difference, Options.new, hc, he, hl, hn]
  · intro g env dev n l hc he hl hn
    simp [IniGroup.set_lun, cmd_with_options, Options.check_pack,
      Options.spec_difference, Options.new, hc, he, hl, hn]
  · intro t0 path nd tv ev les ges n sub h1 h2 h3 h4 hmem hsub
    have hassoc : path ++ ["luns", n] = (path ++ ["luns"]) ++ [n] := by simp
    have key : (Lun.loadF {} (path ++ ["luns", n]) (some sub)).1.name = n := by
      rw [lun_loadF_name, hassoc, basename_append]
    simp only [Target.loadF, h1, h2, h3, h4]
    apply mem_collectPairs
    refine ⟨(Lun.loadF {} (path ++ ["luns", n]) (some sub)).1, ?_⟩
    have hmemf : (n, sub) ∈ les.filter (fun kv => kv.2.isDir) :=
      List.mem_filter.mpr ⟨hmem, hsub⟩
    have := List.mem_map_of_mem
      (fun kv : String × FNode =>
        let lun := (Lun.loadF {} (path ++ ["luns", kv.1]) (some kv.2)).1
        (lun.name, lun)) hmemf
    simpa [key] using this
  · intro g0 path nd les ies n sub h1 h2 hmem hsub
    have hassoc : path ++ ["luns", n] = (path ++ ["luns"]) ++ [n] := by simp
    have key : (Lun.loadF {} (path ++ ["luns", n]) (some sub)).1.name = n := by
      rw [lun_loadF_name, hassoc, basename_append]
    simp only [IniGroup.loadF, h1, h2]
    apply mem_collectPairs
    refine ⟨(Lun.loadF {} (path ++ ["luns", n]) (some sub)).1, ?_⟩
    have hmemf : (n, sub) ∈ les.filter (fun kv => kv.2.isDir) :=
      List.mem_filter.mpr ⟨hmem, hsub⟩
    have := List.mem_map_of_mem
      (fun kv : String × FNode =>
        let lun := (Lun.loadF {} (path ++ ["luns", kv.1]) (some kv.2)).1
        (lun.name, lun)) hmemf
    simpa [key] using this
  · intro n h
    rw [from_cfg_lun_key] at h
    have hlen := congrArg String.length h
    rw [String.length_append] at hlen
    have h4 : ("lun ").length = 4 := rfl
    omega

/-- C2 witness: adding LUN id 0 to the empty fixture target against the
live oracle stores it under the raw key "0". -/
theorem lun_cache_key_is_raw_id_witness :
    (Target.add_lun targetEmpty envLive "d" (toString 0) Options.new).2.1.luns
      = mapInsert targetEmpty.luns (toString 0)
          { root := ["t", "luns", "0"], name := "0" } :=
  lun_cache_key_is_raw_id.1 targetEmpty envLive "d" 0
    { root := ["t", "luns", "0"], name := "0" } (by decide) rfl rfl rfl

/-- C9: `Scst::add_device` and `Scst::del_device` reload the copy-manager
subtree before returning: on success the cached copy manager is replaced
by the reloaded one, and when the reload fails the whole operation
returns the reload's error even though the handler's device collection
has already been mutated. -/
theorem scst_device_ops_reload_copy_manager :
    (∀ (s : Scst) (env : Env) (hl n f : String) (o : Options) (h h' : Handler)
        (evs : List Event) (cm : CopyManager),
      mapLookup s.handlers hl = some h →
      Handler.add_device h env n f o = (.ok (), h', evs) →
      env.loadCopy s.copy_driver.root = .ok cm →
      Scst.add_device s env hl n f o =
        (.ok (),
         { s with handlers := mapInsert s.handlers hl h', copy_driver := cm },
         evs))
    ∧ (∀ (s : Scst) (env : Env) (hl n f : String) (o : Options) (h h' : Handler)
        (evs : List Event) (e : ScstErr),
      mapLookup s.handlers hl = some h →
      Handler.add_device h env n f o = (.ok (), h', evs) →
      env.loadCopy s.copy_driver.root = .error e →
      Scst.add_device s env hl n f o =
        (.error e, { s with handlers := mapInsert s.handlers hl h' }, evs))
    ∧ (∀ (s : Scst) (env : Env) (hl n : String) (h h' : Handler)
        (evs : List Event) (cm : CopyManager),
      mapLookup s.handlers hl = some h →
      Handler.del_device h env n = (.ok (), h', evs) →
      env.loadCopy s.copy_driver.root = .ok cm →
      Scst.del_device s env hl n =
        (.ok (),
         { s with handlers := mapInsert s.handlers hl h', copy_driver := cm },
         evs))
    ∧ (∀ (s : Scst) (env : Env) (hl n : String) (h h' : Handler)
        (evs : List Event) (e : ScstErr),
      mapLookup s.handlers hl = some h →
      Handler.del_device h env n = (.ok (), h', evs) →
      env.loadCopy s.copy_driver.root = .error e →
      Scst.del_device s env hl n =
        (.error e, { s with handlers := mapInsert s.handlers hl h' }, evs)) := by
  refine ⟨?_, ?_, ?_, ?_⟩
  · intro s env hl n f o h h' evs cm hlk hadd hcp
    simp [Scst.add_device, hlk, hadd, hcp]
  · intro s env hl n f o h h' evs e hlk hadd hcp
    simp [Scst.add_device, hlk, hadd, hcp]
  · intro s env hl n h h' evs cm hlk hdel hcp
    simp [Scst.del_device, hlk, hdel, hcp]
  · intro s env hl n h h' evs e hlk hdel hcp
    simp [Scst.del_device, hlk, hdel, hcp]

/-- C9 witness: on the fixture snapshot, adding a device with a live
oracle replaces the cached copy manager by the reloaded one, and deleting
a device with a failing copy reload returns the reload error while the
device is already gone from the handler's cache. -/
theorem scst_device_ops_reload_copy_manager_witness :
    Scst.add_device scstFix envLive "vdisk_blockio" "e" "/dev/sdc" Options.new =
      (.ok (),
       { scstFix with
          handlers := mapInsert scstFix.handlers "vdisk_blockio" handlerFixAdded,
          copy_driver := { root := ["cm"] } },
       [.write (["h"] ++ ["mgmt"]) ("add_device " ++ "e" ++ " filename=" ++ "/dev/sdc")])
    ∧ Scst.del_device scstFix envCopyFail "vdisk_blockio" "d" =
      (.error .io,
       { scstFix with
          handlers := mapInsert scstFix.handlers "vdisk_blockio" handlerFixRemoved },
       [.write (["h"] ++ ["mgmt"]) ("del_device " ++ "d")]) :=
  ⟨scst_device_ops_reload_copy_manager.1 scstFix envLive "vdisk_blockio" "e"
     "/dev/sdc" Options.new handlerFix handlerFixAdded
     [.write (["h"] ++ ["mgmt"]) ("add_device " ++ "e" ++ " filename=" ++ "/dev/sdc")]
     { root := ["cm"] } rfl rfl rfl,
   scst_device_ops_reload_copy_manager.2.2.2 scstFix envCopyFail "vdisk_blockio" "d"
     handlerFix handlerFixRemoved
     [.write (["h"] ++ ["mgmt"]) ("del_device " ++ "d")] .io rfl rfl rfl⟩

/-! #### A generic lemma: collected children are keyed by directory name -/

theorem collected_children_contain {α : Type} (les : List (String × FNode))
    (p : String × FNode → Bool) (f : String × FNode → String × α)
    (hf : ∀ kv, (f kv).1 = kv.1)
    (n : String) (sub : FNode) (hmem : (n, sub) ∈ les) (hp : p (n, sub) = true) :
    mapContains (collectPairs ((les.filter p).map f)) n = true := by
  apply mem_collectPairs
  refine ⟨(f (n, sub)).2, ?_⟩
  have hmemf : (n, sub) ∈ les.filter p := List.mem_filter.mpr ⟨hmem, hp⟩
  have h2 := List.mem_map_of_mem f hmemf
  have h4 : (f (n, sub)).1 = n := hf (n, sub)
  have h3 : (n, (f (n, sub)).2) = f (n, sub) := by
    rw [Prod.ext_iff]
    exact ⟨h4.symm, rfl⟩
  rw [h3]
  exact h2

/-- C3 counterexample: loading a handler directory with a `type` file and
one device subdirectory that cannot be parsed succeeds, the device's own
load fails — and yet the device IS present in the handler's device map,
keyed by its directory name; the claim's assertion that the failed child
is absent from the parent's collection is false. -/
theorem failed_child_still_in_collection_counterexample :
    (Handler.loadF {} ["handlers", "vdisk_blockio"] (some handlerNode)).2 = none
    ∧ (Device.loadF {} ["handlers", "vdisk_blockio", "disk1"] (some (.dir []))).2
        = some .io
    ∧ mapContains
        (Handler.loadF {} ["handlers", "vdisk_blockio"] (some handlerNode)).1.devices
        "disk1" = true :=
  ⟨rfl, rfl, rfl⟩

/-- C3 (amended): when a child directory's load fails to parse, the child
is STILL inserted into the parent's resulting collection — keyed by its
directory-derived name, holding only the fields assigned before the
failure — and the parent's load still succeeds (provided the parent's own
scalar reads succeed), for Scst over handlers, Handler over devices,
Driver over targets, and Target over LUNs and groups. -/
theorem failed_child_kept_and_parent_load_succeeds :
    (∀ (h0 : Handler) (path : FsPath) (nd : Option FNode) (ty : String)
        (es : List (String × FNode)),
      readFlF nd "type" = .ok ty → dirEntries nd = .ok es →
      (Handler.loadF h0 path nd).2 = none
      ∧ ∀ (n : String) (sub : FNode), (n, sub) ∈ es → sub.isDir = true →
        mapContains (Handler.loadF h0 path nd).1.devices n = true)
    ∧ (∀ (d0 : Driver) (path : FsPath) (nd : Option FNode) (ev : Int)
        (os vv : String) (es : List (String × FNode)),
      (readFlF nd "enabled").bind parseI8 = .ok ev →
      readFlF nd "open_state" = .ok os → readFlF nd "version" = .ok vv →
      dirEntries nd = .ok es →
      (Driver.loadF d0 path nd).2 = none
      ∧ ∀ (n : String) (sub : FNode), (n, sub) ∈ es → sub.isDir = true →
        strStarts n "iqn" = true →
        mapContains (Driver.loadF d0 path nd).1.targets n = true)
    ∧ (∀ (t0 : Target) (path : FsPath) (nd : Option FNode) (tv : String)
        (ev : Int) (les ges : List (String × FNode)),
      readFlF nd "tid" = .ok tv →
      (readFlF nd "enabled").bind parseI8 = .ok ev →
      dirEntries (childNode nd "luns") = .ok les →
      dirEntries (childNode nd "ini_groups") = .ok ges →
      (Target.loadF t0 path nd).2 = none
      ∧ (∀ (n : String) (sub : FNode), (n, sub) ∈ les → sub.isDir = true →
          mapContains (Target.loadF t0 path nd).1.luns n = true)
      ∧ (∀ (n : String) (sub : FNode), (n, sub) ∈ ges → sub.isDir = true →
          mapContains (Target.loadF t0 path nd).1.ini_groups n = true))
    ∧ (∀ (s0 : Scst) (path : FsPath) (nd : Option FNode) (ver : String)
        (es : List (String × FNode)) (isc : Driver) (cmv : CopyManager),
      readFlF nd "version" = .ok ver →
      dirEntries (childNode nd "handlers") = .ok es →
      Driver.loadF {} (path ++ ["targets", "iscsi"])
        (childNode (childNode nd "targets") "iscsi") = (isc, none) →
      CopyManager.loadF {} (path ++ ["targets", "copy_manager"])
        (childNode (childNode nd "targets") "copy_manager") = (cmv, none) →
      (Scst.loadF s0 path nd).2 = none
      ∧ ∀ (n : String) (sub : FNode), (n, sub) ∈ es → sub.isDir = true →
        mapContains (Scst.loadF s0 path nd).1.handlers n = true) := by
  refine ⟨?_, ?_, ?_, ?_⟩
  · intro h0 path nd ty es h1 h2
    constructor
    · simp only [Handler.loadF, h1, h2]
    · intro n sub hmem hsub
      simp only [Handler.loadF, h1, h2]
      apply collected_children_contain
      · intro kv
        simp only []
        rw [device_loadF_name, basename_append]
      · exact hmem
      · exact hsub
  · intro d0 path nd ev os vv es h1 h2 h3 h4
    constructor
    · simp only [Driver.loadF, h1, h2, h3, h4]
    · intro n sub hmem hsub hiqn
      simp only [Driver.loadF, h1, h2, h3, h4]
      apply collected_children_contain
      · intro kv
        simp only []
        rw [target_loadF_name, basename_append]
      · exact hmem
      · simp [hsub, hiqn]
  · intro t0 path nd tv ev les ges h1 h2 h3 h4
    refine ⟨?_, ?_, ?_⟩
    · simp only [Target.loadF, h1, h2, h3, h4]
    · intro n sub hmem hsub
      simp only [Target.loadF, h1, h2, h3, h4]
      apply collected_children_contain
      · intro kv
        simp only []
        rw [lun_loadF_name]
        rw [show path ++ ["luns", kv.1] = (path ++ ["luns"]) ++ [kv.1] by simp]
        rw [basename_append]
      · exact hmem
      · exact hsub
    · intro n sub hmem hsub
      simp only [Target.loadF, h1, h2, h3, h4]
      apply collected_children_contain
      · intro kv
        simp only []
        rw [group_loadF_name]
        rw [show path ++ ["ini_groups", kv.1] = (path ++ ["ini_groups"]) ++ [kv.1] by simp]
        rw [basename_append]
      · exact hmem
      · exact hsub
  · intro s0 path nd ver es isc cmv h1 h2 h3 h4
    constructor
    · simp only [Scst.loadF, h1, h2, h3, h4]
    · intro n sub hmem hsub
      simp only [Scst.loadF, h1, h2, h3, h4]
      apply collected_children_contain
      · intro kv
        simp only []
        rw [handler_loadF_name]
        rw [show path ++ ["handlers", kv.1] = (path ++ ["handlers"]) ++ [kv.1] by simp]
        rw [basename_append]
      · exact hmem
      · exact hsub

/-- C3 witness: the amended behavior at the concrete model directories —
the handler keeps its unparseable device "disk1", the driver keeps its
unparseable target "iqn.t", the target keeps its unparseable LUN "0" and
group "grp", and the root keeps its unparseable handler "vdisk_blockio",
with every parent load succeeding. -/
theorem failed_child_kept_witness :
    ((Handler.loadF {} ["h"] (some handlerNode)).2 = none
      ∧ mapContains (Handler.loadF {} ["h"] (some handlerNode)).1.devices
          "disk1" = true)
    ∧ ((Driver.loadF {} ["d"] (some driverNode)).2 = none
      ∧ mapContains (Driver.loadF {} ["d"] (some driverNode)).1.targets
          "iqn.t" = true)
    ∧ ((Target.loadF {} ["t"] (some targetNode)).2 = none
      ∧ mapContains (Target.loadF {} ["t"] (some targetNode)).1.luns "0" = true
      ∧ mapContains (Target.loadF {} ["t"] (some targetNode)).1.ini_groups
          "grp" = true)
    ∧ ((Scst.loadF {} [] (some scstNode)).2 = none
      ∧ mapContains (Scst.loadF {} [] (some scstNode)).1.handlers
          "vdisk_blockio" = true) := by
  have ha := failed_child_kept_and_parent_load_succeeds.1 {} ["h"]
    (some handlerNode) "vdisk_blockio" [("type", .file "vdisk_blockio"), ("disk1", .dir [])]
    rfl rfl
  have hb := failed_child_kept_and_parent_load_succeeds.2.1 {} ["d"]
    (some driverNode) 1 "open" "3.7"
    [("enabled", .file "1"), ("open_state", .file "open"),
     ("version", .file "3.7"), ("iqn.t", .dir [])] rfl rfl rfl rfl
  have hc := failed_child_kept_and_parent_load_succeeds.2.2.1 {} ["t"]
    (some targetNode) "1" 1 [("0", .dir [])] [("grp", .dir [])] rfl rfl rfl rfl
  have hd := failed_child_kept_and_parent_load_succeeds.2.2.2 {} []
    (some scstNode) "3.7" [("vdisk_blockio", .dir [])]
    (Driver.loadF {} (([] : FsPath) ++ ["targets", "iscsi"])
      (childNode (childNode (some scstNode) "targets") "iscsi")).1
    (CopyManager.loadF {} (([] : FsPath) ++ ["targets", "copy_manager"])
      (childNode (childNode (some scstNode) "targets") "copy_manager")).1
    rfl rfl rfl rfl
  exact ⟨⟨ha.1, ha.2 "disk1" (.dir []) (by simp) rfl⟩,
    ⟨hb.1, hb.2 "iqn.t" (.dir []) (by simp) rfl (by decide)⟩,
    ⟨hc.1, hc.2.1 "0" (.dir []) (by simp) rfl,
      hc.2.2 "grp" (.dir []) (by simp) rfl⟩,
    ⟨hd.1, hd.2 "vdisk_blockio" (.dir []) (by simp) rfl⟩⟩

/-! #### No-op lemmas for the reconciler loops on a matching live tree -/

theorem fromCfgDevices_noop (h : Handler) (env : Env) (devs : List DeviceCfg)
    (hall : ∀ dev ∈ devs, mapContains h.devices dev.name = true) :
    fromCfgDevices h env devs = (.ok (), h, []) := by
  induction devs with
  | nil => rfl
  | cons dev rest ih =>
    have h1 := hall dev (List.mem_cons_self _ _)
    simp only [fromCfgDevices, h1, if_true]
    exact ih (fun d hd => hall d (List.mem_cons_of_mem _ hd))

theorem fromCfgInis_noop (g : IniGroup) (env : Env) (inis : List String)
    (hall : ∀ i ∈ inis, g.initiators.contains i = true) :
    fromCfgInis g env inis = (.ok (), g, []) := by
  induction inis with
  | nil => rfl
  | cons i rest ih =>
    have h1 := hall i (List.mem_cons_self _ _)
    simp only [fromCfgInis, h1, if_true]
    exact ih (fun j hj => hall j (List.mem_cons_of_mem _ hj))

theorem fromCfgGroups_noop (t : Target) (env : Env) (gcs : List IniGroupCfg)
    (hall : ∀ gc ∈ gcs, gc.luns = []
      ∧ ∃ g, mapLookup t.ini_groups gc.name = some g
      ∧ ∀ i ∈ gc.initiators, g.initiators.contains i = true) :
    fromCfgGroups t env gcs = (.ok (), t, []) := by
  induction gcs with
  | nil => rfl
  | cons gc rest ih =>
    obtain ⟨hluns, g, hg, hinis⟩ := hall gc (List.mem_cons_self _ _)
    have hcont : mapContains t.ini_groups gc.name = true := by
      simp [mapContains, hg]
    have hins : mapInsert t.ini_groups gc.name g = t.ini_groups :=
      mapInsert_self _ _ _ hg
    simp only [fromCfgGroups, hcont, if_true, hg, hluns,
      fromCfgGroupLuns, fromCfgInis_noop g env gc.initiators hinis, hins]
    simpa using ih (fun gc' hgc' => hall gc' (List.mem_cons_of_mem _ hgc'))

theorem fromCfgTargets_noop (d : Driver) (env : Env) (tcs : List TargetCfg)
    (hall : ∀ tc ∈ tcs, tc.enabled ≠ 1 ∧ tc.luns = []
      ∧ ∃ t, mapLookup d.targets tc.name = some t
      ∧ ∀ gc ∈ tc.groupsList, gc.luns = []
        ∧ ∃ g, mapLookup t.ini_groups gc.name = some g
        ∧ ∀ i ∈ gc.initiators, g.initiators.contains i = true) :
    fromCfgTargets d env tcs = (.ok (), d, []) := by
  induction tcs with
  | nil => rfl
  | cons tc rest ih =>
    obtain ⟨hen, hluns, t, ht, hgroups⟩ := hall tc (List.mem_cons_self _ _)
    have hcont : mapContains d.targets tc.name = true := by
      simp [mapContains, ht]
    have hins : mapInsert d.targets tc.name t = d.targets :=
      mapInsert_self _ _ _ ht
    simp only [fromCfgTargets, hcont, if_true, ht, hluns, fromCfgLuns,
      fromCfgGroups_noop t env tc.groupsList hgroups, hen, if_false, hins]
    simpa using ih (fun tc' htc' => hall tc' (List.mem_cons_of_mem _ htc'))

theorem fromCfgHandlers_noop (s : Scst) (env : Env) (hcs : List HandlerCfg)
    (hall : ∀ hc ∈ hcs, ∃ h, mapLookup s.handlers hc.name = some h
      ∧ ∀ dev ∈ hc.devicesList, mapContains h.devices dev.name = true) :
    fromCfgHandlers s env hcs = (.ok (), s, []) := by
  induction hcs with
  | nil => rfl
  | cons hc rest ih =>
    obtain ⟨h, hh, hdevs⟩ := hall hc (List.mem_cons_self _ _)
    have hins : mapInsert s.handlers hc.name h = s.handlers :=
      mapInsert_self _ _ _ hh
    simp only [fromCfgHandlers, hh, fromCfgDevices_noop h env hc.devicesList hdevs,
      hins]
    simpa using ih (fun hc' hhc' => hall hc' (List.mem_cons_of_mem _ hhc'))

theorem fromCfgDrivers_noop (env : Env) (dcs : List DriverCfg) :
    ∀ (s : Scst) (cm : CopyManager),
      env.loadCopy s.copy_driver.root = .ok cm →
      cm.root = s.copy_driver.root →
      (∀ dc ∈ dcs, dc.enabled ≠ 1
        ∧ ∀ tc ∈ dc.targetsList, tc.enabled ≠ 1 ∧ tc.luns = []
          ∧ ∃ t, mapLookup s.iscsi_driver.targets tc.name = some t
          ∧ ∀ gc ∈ tc.groupsList, gc.luns = []
            ∧ ∃ g, mapLookup t.ini_groups gc.name = some g
            ∧ ∀ i ∈ gc.initiators, g.initiators.contains i = true) →
      ∃ cd : CopyManager, cd.root = s.copy_driver.root
        ∧ fromCfgDrivers s env dcs = (.ok (), { s with copy_driver := cd }, []) := by
  induction dcs with
  | nil =>
    intro s cm hcopy hroot hall
    exact ⟨s.copy_driver, rfl, by simp [fromCfgDrivers]⟩
  | cons dc rest ih =>
    intro s cm hcopy hroot hall
    obtain ⟨hen, htcs⟩ := hall dc (List.mem_cons_self _ _)
    have htn := fromCfgTargets_noop s.iscsi_driver env dc.targetsList htcs
    obtain ⟨cd, hcd, heq⟩ := ih { s with copy_driver := cm } cm
      (by simpa [hroot] using hcopy) rfl
      (fun dc' hdc' => hall dc' (List.mem_cons_of_mem _ hdc'))
    refine ⟨cd, by rw [hcd, hroot], ?_⟩
    simp only [fromCfgDrivers, hen, if_false, htn, hcopy]
    simpa using heq

/-- C1 counterexample: against the fixture snapshot that already contains
every configured entity, reconciliation is not write-free and successful:
with a config listing LUN id 0 — cached live under the load-derived key
"0" — `from_cfg` fails with `TargetLunExists "0"`, and with a config that
merely marks the (already cached) driver enabled, `from_cfg` performs an
enabled-file write even though nothing is missing live. -/
theorem from_cfg_matching_tree_counterexample :
    mapLookup scstFix.iscsi_driver.targets "iqn.t" = some targetFix
    ∧ mapContains targetFix.luns "0" = true
    ∧ (Scst.from_cfg scstFix envLive cfgLunPresent).1 = .error (.targetLunExists "0")
    ∧ (Scst.from_cfg scstFix envLive cfgLunPresent).2.2 = []
    ∧ (Scst.from_cfg scstFix envLive cfgEnabledDriver).1 = .ok ()
    ∧ (Scst.from_cfg scstFix envLive cfgEnabledDriver).2.2 =
        [.write ["d", "enabled"] "1"] :=
  ⟨rfl, rfl, rfl, rfl, rfl, rfl⟩

/-- C1 (amended): reconciling a Config against a live tree that already
contains every described handler, device, target, initiator group and
initiator — provided additionally that no configured driver or target is
marked enabled and that the Config lists no LUNs — issues no mgmt command
and no enabled-file write, succeeds, and leaves the cache unchanged apart
from the copy-manager reload.  (Without those provisos the claim fails: a
configured-enabled driver or target is enabled unconditionally, an
enabled-file write; and a configured LUN that is live is looked up under
the key "lun <id>", never found, and re-added, which fails with
TargetLunExists.) -/
theorem from_cfg_noop_on_matching_disabled_config (s : Scst) (env : Env)
    (cfg : Config) (cm : CopyManager)
    (hh : ∀ hc ∈ cfg.handlersList, ∃ h, mapLookup s.handlers hc.name = some h
      ∧ ∀ dev ∈ hc.devicesList, mapContains h.devices dev.name = true)
    (hd : ∀ dc ∈ cfg.driversList, dc.enabled ≠ 1
      ∧ ∀ tc ∈ dc.targetsList, tc.enabled ≠ 1 ∧ tc.luns = []
        ∧ ∃ t, mapLookup s.iscsi_driver.targets tc.name = some t
        ∧ ∀ gc ∈ tc.groupsList, gc.luns = []
          ∧ ∃ g, mapLookup t.ini_groups gc.name = some g
          ∧ ∀ i ∈ gc.initiators, g.initiators.contains i = true)
    (hcopy : env.loadCopy s.copy_driver.root = .ok cm)
    (hroot : cm.root = s.copy_driver.root) :
    ∃ cd : CopyManager,
      Scst.from_cfg s env cfg = (.ok (), { s with copy_driver := cd }, []) := by
  obtain ⟨cd, hcd, heq⟩ := fromCfgDrivers_noop env cfg.driversList s cm hcopy hroot hd
  refine ⟨cd, ?_⟩
  simp only [Scst.from_cfg, fromCfgHandlers_noop s env cfg.handlersList hh, heq]
  simp

/-- C1 witness: reconciling the matching disabled configuration against
the fixture snapshot with the live oracle performs zero writes and
succeeds, touching only the reloaded copy manager. -/
theorem from_cfg_noop_witness :
    ∃ cd : CopyManager,
      Scst.from_cfg scstFix envLive cfgMatch =
        (.ok (), { scstFix with copy_driver := cd }, []) := by
  apply from_cfg_noop_on_matching_disabled_config scstFix envLive cfgMatch
    { root := ["cm"] }
  · intro hc hmem
    simp only [cfgMatch, Config.handlersList, List.map, List.mem_singleton] at hmem
    subst hmem
    refine ⟨handlerFix, rfl, ?_⟩
    intro dev hdev
    simp only [hcMatch, HandlerCfg.devicesList, List.map, List.mem_singleton] at hdev
    subst hdev
    decide
  · intro dc hmem
    simp only [cfgMatch, Config.driversList, List.map, List.mem_singleton] at hmem
    subst hmem
    refine ⟨by decide, ?_⟩
    intro tc htc
    simp only [DriverCfg.targetsList, List.map, List.mem_singleton] at htc
    subst htc
    refine ⟨by decide, rfl, targetFix, rfl, ?_⟩
    intro gc hgc
    simp only [tcMatch, TargetCfg.groupsList, List.map, List.mem_singleton] at hgc
    subst hgc
    exact ⟨rfl, { name := "grp" }, rfl, by simp⟩
  · rfl
  · rfl

/-! #### Event-shape lemmas for the reconciler trace -/

theorem cmd_with_options_new (c : String) (params : List String) :
    cmd_with_options c params Options.new = .ok c := rfl

theorem check_pack_new (params : List String) :
    Options.check_pack Options.new params = .ok none := rfl

theorem additive_enable (p : FsPath) :
    Event.additiveShape (.write (p ++ ["enabled"]) "1") :=
  Or.inl ⟨p, rfl, rfl⟩

theorem additive_add_device (p : FsPath) (n f : String) :
    Event.additiveShape (.write (p ++ ["mgmt"]) ("add_device " ++ n ++ " filename=" ++ f)) :=
  Or.inr ⟨p, rfl, Or.inl ⟨n ++ " filename=" ++ f, by simp [String.append_assoc]⟩⟩

theorem additive_add_target (p : FsPath) (n : String) :
    Event.additiveShape (.write (p ++ ["mgmt"]) ("add_target " ++ n)) :=
  Or.inr ⟨p, rfl, Or.inr (Or.inl ⟨n, rfl⟩)⟩

theorem additive_add (p : FsPath) (r : String) :
    Event.additiveShape (.write (p ++ ["mgmt"]) ("add " ++ r)) :=
  Or.inr ⟨p, rfl, Or.inr (Or.inr (Or.inl ⟨r, rfl⟩))⟩

theorem additive_add3 (p : FsPath) (a b : String) :
    Event.additiveShape (.write (p ++ ["mgmt"]) ("add " ++ a ++ " " ++ b)) := by
  have h : "add " ++ a ++ " " ++ b = "add " ++ (a ++ (" " ++ b)) := by
    simp [String.append_assoc]
  rw [h]
  exact additive_add p (a ++ (" " ++ b))

theorem additive_create (p : FsPath) (n : String) :
    Event.additiveShape (.write (p ++ ["mgmt"]) ("create " ++ n)) :=
  Or.inr ⟨p, rfl, Or.inr (Or.inr (Or.inr ⟨n, rfl⟩))⟩

theorem add_device_trace (h : Handler) (env : Env) (n f : String) :
    ∀ e ∈ (Handler.add_device h env n f Options.new).2.2, Event.additiveShape e := by
  intro e he
  simp only [Handler.add_device, cmd_with_options_new] at he
  repeat' split at he
  all_goals simp at he
  all_goals (subst he; exact additive_add_device h.root n f)

theorem driver_enable_trace (d : Driver) (env : Env) :
    ∀ e ∈ (Driver.enable d env).2.2, Event.additiveShape e := by
  intro e he
  simp only [Driver.enable] at he
  repeat' split at he
  all_goals simp at he
  all_goals (subst he; exact additive_enable d.root)

theorem target_enable_trace (t : Target) (env : Env) :
    ∀ e ∈ (Target.enable t env).2.2, Event.additiveShape e := by
  intro e he
  simp only [Target.enable] at he
  repeat' split at he
  all_goals simp at he
  all_goals (subst he; exact additive_enable t.root)

theorem add_target_trace (d : Driver) (env : Env) (n : String) :
    ∀ e ∈ (Driver.add_target d env n Options.new).2.2, Event.additiveShape e := by
  intro e he
  simp only [Driver.add_target, check_pack_new] at he
  repeat' split at he
  all_goals simp at he
  all_goals (subst he; exact additive_add_target d.root n)

theorem add_lun_trace (t : Target) (env : Env) (dev id : String) :
    ∀ e ∈ (Target.add_lun t env dev id Options.new).2.2, Event.additiveShape e := by
  intro e he
  simp only [Target.add_lun, cmd_with_options_new] at he
  have hp : t.root ++ ["luns", "mgmt"] = (t.root ++ ["luns"]) ++ ["mgmt"] := by simp
  repeat' split at he
  all_goals simp at he
  all_goals (subst he; rw [hp]; exact additive_add3 (t.root ++ ["luns"]) dev id)

theorem group_add_lun_trace (g : IniGroup) (env : Env) (dev id : String) :
    ∀ e ∈ (IniGroup.add_lun g env dev id Options.new).2.2, Event.additiveShape e := by
  intro e he
  simp only [IniGroup.add_lun, cmd_with_options_new] at he
  have hp : g.root ++ ["luns", "mgmt"] = (g.root ++ ["luns"]) ++ ["mgmt"] := by simp
  repeat' split at he
  all_goals simp at he
  all_goals (subst he; rw [hp]; exact additive_add3 (g.root ++ ["luns"]) dev id)

theorem create_group_trace (t : Target) (env : Env) (n : String) :
    ∀ e ∈ (Target.create_ini_group t env n).2.2, Event.additiveShape e := by
  intro e he
  simp only [Target.create_ini_group] at he
  have hp : t.root ++ ["ini_groups", "mgmt"] = (t.root ++ ["ini_groups"]) ++ ["mgmt"] := by
    simp
  repeat' split at he
  all_goals simp at he
  all_goals (subst he; rw [hp]; exact additive_create (t.root ++ ["ini_groups"]) n)

theorem add_initiator_trace (g : IniGroup) (env : Env) (ini : String) :
    ∀ e ∈ (IniGroup.add_initiator g env ini).2.2, Event.additiveShape e := by
  intro e he
  simp only [IniGroup.add_initiator] at he
  have hp : g.root ++ ["initiators", "mgmt"] = (g.root ++ ["initiators"]) ++ ["mgmt"] := by
    simp
  repeat' split at he
  all_goals simp at he
  all_goals (subst he; rw [hp]; exact additive_add (g.root ++ ["initiators"]) ini)

/-! #### Additive traces through the reconciler loops -/

theorem fromCfgDevices_trace (env : Env) (devs : List DeviceCfg) :
    ∀ (h : Handler) (e : Event), e ∈ (fromCfgDevices h env devs).2.2 →
      Event.additiveShape e := by
  induction devs with
  | nil => intro h e he; simp [fromCfgDevices] at he
  | cons dev rest ih =>
    intro h e he
    rw [fromCfgDevices] at he
    split at he
    · exact ih h e he
    · rcases hadd : Handler.add_device h env dev.name dev.filename Options.new
        with ⟨r1, h', evs⟩
      rw [hadd] at he
      cases r1 with
      | ok u =>
        simp only [] at he
        rcases hrec : fromCfgDevices h' env rest with ⟨r2, h'', evs'⟩
        rw [hrec] at he
        simp at he
        rcases he with he | he
        · exact add_device_trace h env dev.name dev.filename e (by rw [hadd]; exact he)
        · exact ih h' e (by rw [hrec]; exact he)
      | error e1 =>
        simp at he
        exact add_device_trace h env dev.name dev.filename e (by rw [hadd]; simpa using he)

theorem fromCfgLuns_trace (env : Env) (lcs : List LunCfg) :
    ∀ (t : Target) (e : Event), e ∈ (fromCfgLuns t env lcs).2.2 →
      Event.additiveShape e := by
  induction lcs with
  | nil => intro t e he; simp [fromCfgLuns] at he
  | cons lc rest ih =>
    intro t e he
    rw [fromCfgLuns] at he
    split at he
    · exact ih t e he
    · rcases hadd : Target.add_lun t env lc.device (toString lc.id) Options.new
        with ⟨r1, t', evs⟩
      rw [hadd] at he
      cases r1 with
      | ok u =>
        simp only [] at he
        rcases hrec : fromCfgLuns t' env rest with ⟨r2, t'', evs'⟩
        rw [hrec] at he
        simp at he
        rcases he with he | he
        · exact add_lun_trace t env lc.device (toString lc.id) e (by rw [hadd]; exact he)
        · exact ih t' e (by rw [hrec]; exact he)
      | error e1 =>
        simp at he
        exact add_lun_trace t env lc.device (toString lc.id) e
          (by rw [hadd]; simpa using he)

theorem fromCfgGroupLuns_trace (env : Env) (lcs : List LunCfg) :
    ∀ (g : IniGroup) (e : Event), e ∈ (fromCfgGroupLuns g env lcs).2.2 →
      Event.additiveShape e := by
  induction lcs with
  | nil => intro g e he; simp [fromCfgGroupLuns] at he
  | cons lc rest ih =>
    intro g e he
    rw [fromCfgGroupLuns] at he
    split at he
    · exact ih g e he
    · rcases hadd : IniGroup.add_lun g env lc.device (toString lc.id) Options.new
        with ⟨r1, g', evs⟩
      rw [hadd] at he
      cases r1 with
      | ok u =>
        simp only [] at he
        rcases hrec : fromCfgGroupLuns g' env rest with ⟨r2, g'', evs'⟩
        rw [hrec] at he
        simp at he
        rcases he with he | he
        · exact group_add_lun_trace g env lc.device (toString lc.id) e
            (by rw [hadd]; exact he)
        · exact ih g' e (by rw [hrec]; exact he)
      | error e1 =>
        simp at he
        exact group_add_lun_trace g env lc.device (toString lc.id) e
          (by rw [hadd]; simpa using he)

theorem fromCfgInis_trace (env : Env) (inis : List String) :
    ∀ (g : IniGroup) (e : Event), e ∈ (fromCfgInis g env inis).2.2 →
      Event.additiveShape e := by
  induction inis with
  | nil => intro g e he; simp [fromCfgInis] at he
  | cons ini rest ih =>
    intro g e he
    rw [fromCfgInis] at he
    split at he
    · exact ih g e he
    · rcases hadd : IniGroup.add_initiator g env ini with ⟨r1, g', evs⟩
      rw [hadd] at he
      cases r1 with
      | ok u =>
        simp only [] at he
        rcases hrec : fromCfgInis g' env rest with ⟨r2, g'', evs'⟩
        rw [hrec] at he
        simp at he
        rcases he with he | he
        · exact add_initiator_trace g env ini e (by rw [hadd]; exact he)
        · exact ih g' e (by rw [hrec]; exact he)
      | error e1 =>
        simp at he
        exact add_initiator_trace g env ini e (by rw [hadd]; simpa using he)

theorem fromCfgGroups_trace (env : Env) (gcs : List IniGroupCfg) :
    ∀ (t : Target) (e : Event), e ∈ (fromCfgGroups t env gcs).2.2 →
      Event.additiveShape e := by
  induction gcs with
  | nil => intro t e he; simp [fromCfgGroups] at he
  | cons gc rest ih =>
    intro t e he
    rw [fromCfgGroups] at he
    have hstep : ∀ e ∈ ((if mapContains t.ini_groups gc.name then
        ((.ok (), t, []) : OpResult Target Unit)
        else Target.create_ini_group t env gc.name)).2.2, Event.additiveShape e := by
      intro e' he'
      split at he'
      · simp at he'
      · exact create_group_trace t env gc.name e' he'
    rcases hs : (if mapContains t.ini_groups gc.name then
        ((.ok (), t, []) : OpResult Target Unit)
        else Target.create_ini_group t env gc.name) with ⟨r1, t', evs⟩
    rw [hs] at he
    cases r1 with
    | error e1 =>
      simp at he
      exact hstep e (by rw [hs]; simpa using he)
    | ok u =>
      simp only [] at he
      rcases hlk : mapLookup t'.ini_groups gc.name with _ | g
      · rw [hlk] at he
        simp at he
        exact hstep e (by rw [hs]; simpa using he)
      · rw [hlk] at he
        simp only [] at he
        rcases hgl : fromCfgGroupLuns g env gc.luns with ⟨r2, g', evs2⟩
        rw [hgl] at he
        cases r2 with
        | error e2 =>
          simp at he
          rcases he with he | he
          · exact hstep e (by rw [hs]; simpa using he)
          · exact fromCfgGroupLuns_trace env gc.luns g e (by rw [hgl]; simpa using he)
        | ok u2 =>
          simp only [] at he
          rcases hgi : fromCfgInis g' env gc.initiators with ⟨r3, g'', evs3⟩
          rw [hgi] at he
          cases r3 with
          | error e3 =>
            simp at he
            rcases he with he | he | he
            · exact hstep e (by rw [hs]; simpa using he)
            · exact fromCfgGroupLuns_trace env gc.luns g e (by rw [hgl]; simpa using he)
            · exact fromCfgInis_trace env gc.initiators g' e (by rw [hgi]; simpa using he)
          | ok u3 =>
            simp only [] at he
            rcases hrec : fromCfgGroups
                { t' with ini_groups := mapInsert t'.ini_groups gc.name g'' } env rest
              with ⟨r4, t3, evs4⟩
            rw [hrec] at he
            simp at he
            rcases he with he | he | he | he
            · exact hstep e (by rw [hs]; simpa using he)
            · exact fromCfgGroupLuns_trace env gc.luns g e (by rw [hgl]; simpa using he)
            · exact fromCfgInis_trace env gc.initiators g' e (by rw [hgi]; simpa using he)
            · exact ih _ e (by rw [hrec]; simpa using he)

theorem fromCfgTargets_trace (env : Env) (tcs : List TargetCfg) :
    ∀ (d : Driver) (e : Event), e ∈ (fromCfgTargets d env tcs).2.2 →
      Event.additiveShape e := by
  induction tcs with
  | nil => intro d e he; simp [fromCfgTargets] at he
  | cons tc rest ih =>
    intro d e he
    rw [fromCfgTargets] at he
    have hstep : ∀ e ∈ ((if mapContains d.targets tc.name then
        ((.ok (), d, []) : OpResult Driver Unit)
        else Driver.add_target d env tc.name Options.new)).2.2, Event.additiveShape e := by
      intro e' he'
      split at he'
      · simp at he'
      · exact add_target_trace d env tc.name e' he'
    rcases hs : (if mapContains d.targets tc.name then
        ((.ok (), d, []) : OpResult Driver Unit)
        else Driver.add_target d env tc.name Options.new) with ⟨r1, d', evs⟩
    rw [hs] at he
    cases r1 with
    | error e1 =>
      simp at he
      exact hstep e (by rw [hs]; simpa using he)
    | ok u =>
      simp only [] at he
      rcases hlk : mapLookup d'.targets tc.name with _ | t
      · rw [hlk] at he
        simp at he
        exact hstep e (by rw [hs]; simpa using he)
      · rw [hlk] at he
        simp only [] at he
        rcases hl : fromCfgLuns t env tc.luns with ⟨r2, t', evs2⟩
        rw [hl] at he
        cases r2 with
        | error e2 =>
          simp at he
          rcases he with he | he
          · exact hstep e (by rw [hs]; simpa using he)
          · exact fromCfgLuns_trace env tc.luns t e (by rw [hl]; simpa using he)
        | ok u2 =>
          simp only [] at he
          rcases hg : fromCfgGroups t' env tc.groupsList with ⟨r3, t'', evs3⟩
          rw [hg] at he
          cases r3 with
          | error e3 =>
            simp at he
            rcases he with he | he | he
            · exact hstep e (by rw [hs]; simpa using he)
            · exact fromCfgLuns_trace env tc.luns t e (by rw [hl]; simpa using he)
            · exact fromCfgGroups_trace env tc.groupsList t' e
                (by rw [hg]; simpa using he)
          | ok u3 =>
            simp only [] at he
            have henable : ∀ e ∈ ((if tc.enabled = 1 then Target.enable t'' env
                else ((.ok (), t'', []) : OpResult Target Unit))).2.2,
                Event.additiveShape e := by
              intro e' he'
              split at he'
              · exact target_enable_trace t'' env e' he'
              · simp at he'
            rcases hen : (if tc.enabled = 1 then Target.enable t'' env
                else ((.ok (), t'', []) : OpResult Target Unit)) with ⟨r4, t3, evs4⟩
            rw [hen] at he
            cases r4 with
            | error e4 =>
              simp at he
              rcases he with he | he | he | he
              · exact hstep e (by rw [hs]; simpa using he)
              · exact fromCfgLuns_trace env tc.luns t e (by rw [hl]; simpa using he)
              · exact fromCfgGroups_trace env tc.groupsList t' e
                  (by rw [hg]; simpa using he)
              · exact henable e (by rw [hen]; simpa using he)
            | ok u4 =>
              simp only [] at he
              rcases hrec : fromCfgTargets
                  { d' with targets := mapInsert d'.targets tc.name t3 } env rest
                with ⟨r5, d3, evs5⟩
              rw [hrec] at he
              simp at he
              rcases he with he | he | he | he | he
              · exact hstep e (by rw [hs]; simpa using he)
              · exact fromCfgLuns_trace env tc.luns t e (by rw [hl]; simpa using he)
              · exact fromCfgGroups_trace env tc.groupsList t' e
                  (by rw [hg]; simpa using he)
              · exact henable e (by rw [hen]; simpa using he)
              · exact ih _ e (by rw [hrec]; simpa using he)

theorem fromCfgHandlers_trace (env : Env) (hcs : List HandlerCfg) :
    ∀ (s : Scst) (e : Event), e ∈ (fromCfgHandlers s env hcs).2.2 →
      Event.additiveShape e := by
  induction hcs with
  | nil => intro s e he; simp [fromCfgHandlers] at he
  | cons hc rest ih =>
    intro s e he
    rw [fromCfgHandlers] at he
    rcases hlk : mapLookup s.handlers hc.name with _ | h
    · rw [hlk] at he
      simp at he
    · rw [hlk] at he
      simp only [] at he
      rcases hdv : fromCfgDevices h env hc.devicesList with ⟨r1, h', evs⟩
      rw [hdv] at he
      cases r1 with
      | error e1 =>
        simp at he
        exact fromCfgDevices_trace env hc.devicesList h e (by rw [hdv]; simpa using he)
      | ok u =>
        simp only [] at he
        rcases hrec : fromCfgHandlers
            { s with handlers := mapInsert s.handlers hc.name h' } env rest
          with ⟨r2, s'', evs'⟩
        rw [hrec] at he
        simp at he
        rcases he with he | he
        · exact fromCfgDevices_trace env hc.devicesList h e (by rw [hdv]; simpa using he)
        · exact ih _ e (by rw [hrec]; simpa using he)

theorem fromCfgDrivers_trace (env : Env) (dcs : List DriverCfg) :
    ∀ (s : Scst) (e : Event), e ∈ (fromCfgDrivers s env dcs).2.2 →
      Event.additiveShape e := by
  induction dcs with
  | nil => intro s e he; simp [fromCfgDrivers] at he
  | cons dc rest ih =>
    intro s e he
    rw [fromCfgDrivers] at he
    have henable : ∀ e ∈ ((if dc.enabled = 1 then Driver.enable s.iscsi_driver env
        else ((.ok (), s.iscsi_driver, []) : OpResult Driver Unit))).2.2,
        Event.additiveShape e := by
      intro e' he'
      split at he'
      · exact driver_enable_trace s.iscsi_driver env e' he'
      · simp at he'
    rcases hen : (if dc.enabled = 1 then Driver.enable s.iscsi_driver env
        else ((.ok (), s.iscsi_driver, []) : OpResult Driver Unit)) with ⟨r1, d', evs⟩
    rw [hen] at he
    cases r1 with
    | error e1 =>
      simp at he
      exact henable e (by rw [hen]; simpa using he)
    | ok u =>
      simp only [] at he
      rcases ht : fromCfgTargets d' env dc.targetsList with ⟨r2, d'', evs2⟩
      rw [ht] at he
      cases r2 with
      | error e2 =>
        simp at he
        rcases he with he | he
        · exact henable e (by rw [hen]; simpa using he)
        · exact fromCfgTargets_trace env dc.targetsList d' e (by rw [ht]; simpa using he)
      | ok u2 =>
        simp only [] at he
        rcases hcp : env.loadCopy s.copy_driver.root with e3 | cm
        · rw [hcp] at he
          simp at he
          rcases he with he | he
          · exact henable e (by rw [hen]; simpa using he)
          · exact fromCfgTargets_trace env dc.targetsList d' e (by rw [ht]; simpa using he)
        · rw [hcp] at he
          simp only [] at he
          rcases hrec : fromCfgDrivers
              { s with iscsi_driver := d'', copy_driver := cm } env rest
            with ⟨r3, s3, evs3⟩
          rw [hrec] at he
          simp at he
          rcases he with he | he | he
          · exact henable e (by rw [hen]; simpa using he)
          · exact fromCfgTargets_trace env dc.targetsList d' e (by rw [ht]; simpa using he)
          · exact ih _ e (by rw [hrec]; simpa using he)

/-- C7: the reconciler never issues a delete or remove operation — every
write event in any `from_cfg` trace, for every configuration, live state
and oracle, is an enabled-file write of "1" or a mgmt command built with
one of the creating verbs (`add_device`, `add_target`, `add`, `create`);
no `del_device`/`del_target`/`del`/`clear`/`move` command and no disable
write are ever issued, so every entity present in the live kernel tree
before reconciliation is still requested to exist afterwards. -/
theorem from_cfg_only_additive_commands (cfg : Config) (s : Scst) (env : Env) :
    ∀ e ∈ (Scst.from_cfg s env cfg).2.2, Event.additiveShape e := by
  intro e he
  rw [Scst.from_cfg] at he
  rcases hh : fromCfgHandlers s env cfg.handlersList with ⟨r1, s', evs⟩
  rw [hh] at he
  cases r1 with
  | error e1 =>
    simp at he
    exact fromCfgHandlers_trace env cfg.handlersList s e (by rw [hh]; simpa using he)
  | ok u =>
    simp only [] at he
    rcases hd : fromCfgDrivers s' env cfg.driversList with ⟨r2, s'', evs'⟩
    rw [hd] at he
    simp at he
    rcases he with he | he
    · exact fromCfgHandlers_trace env cfg.handlersList s e (by rw [hh]; simpa using he)
    · exact fromCfgDrivers_trace env cfg.driversList s' e (by rw [hd]; simpa using he)

/-- C7 witness: the single write the reconciler issues for the
enabled-driver configuration on the fixture snapshot is additive. -/
theorem from_cfg_only_additive_commands_witness :
    Event.additiveShape (.write ["d", "enabled"] "1") :=
  from_cfg_only_additive_commands cfgEnabledDriver scstFix envLive
    (.write ["d", "enabled"] "1")
    (by rw [show (Scst.from_cfg scstFix envLive cfgEnabledDriver).2.2
          = [Event.write ["d", "enabled"] "1"] from rfl]
        exact List.mem_singleton.mpr rfl)

end ScstM
